import Mathlib

/-!
Verification of the Gopa interpreter (lexer, evaluator, permissions and
virtual-time scheduler) against its natural-language specification.  The
definitions below are a shallow embedding of the Python sources in
`gopa_lang/`: `permissions.py`, `lexer.py`, `runtime.py`, `interpreter.py`
and `graphics_stub.py`.  Python machine floats appear only as scheduler
timestamps and are modelled by exact fractions; Python `None` is the value
`VNothing`; Python exceptions (`RuntimeError`, `NameError`, `TypeError` and
the four control signals) are modelled by an explicit exception type.
-/

set_option linter.unusedVariables false

namespace Gopa

/-- A single-quote character (used to build Python error-message text). -/
def sq : String := (Char.ofNat 39).toString

/-- Wrap a string in single quotes, as Python f-strings and `repr` do. -/
def quo (s : String) : String := sq ++ s ++ sq

/-- Characters stripped by Python `str.strip()` with no arguments. -/
def pyIsSpace (c : Char) : Bool :=
  c = ' ' || c = '\t' || c = '\n' || c = '\x0d' || c = '\x0b' || c = '\x0c'

/-- Python `str.strip()` on a character list. -/
def pyStrip (cs : List Char) : List Char :=
  ((cs.dropWhile pyIsSpace).reverse.dropWhile pyIsSpace).reverse

/-- Python `str.lower()` on a character list (ASCII fragment). -/
def pyLower (cs : List Char) : List Char := cs.map Char.toLower

/-- Python `str.split(sep)` for a one-character separator: empty input
gives one empty part, and separators delimit (possibly empty) parts. -/
def splitOnChar (sep : Char) : List Char → List (List Char)
  | [] => [[]]
  | c :: cs =>
    let rest := splitOnChar sep cs
    if c = sep then [] :: rest
    else
      match rest with
      | [] => [[c]]
      | r :: rs => (c :: r) :: rs

/-- Python `str.split()` with no arguments: split on whitespace runs,
discarding empty parts. -/
def splitWs (cs : List Char) : List (List Char) :=
  (splitOnChar ' ' ((cs.map (fun c => if pyIsSpace c then ' ' else c)))).filter
    (fun p => !p.isEmpty)

/-- Parse a run of decimal digits as a natural number. -/
def digitsToNat (cs : List Char) : Nat :=
  cs.foldl (fun acc c => acc * 10 + (c.toNat - 48)) 0

/-- Python `int(s)`: optional surrounding whitespace, optional sign, at
least one digit; `none` models `ValueError`. -/
def pyParseInt (cs : List Char) : Option Int :=
  let t := pyStrip cs
  match t with
  | [] => none
  | '-' :: ds => if ds ≠ [] && ds.all Char.isDigit then some (-(digitsToNat ds : Int)) else none
  | '+' :: ds => if ds ≠ [] && ds.all Char.isDigit then some ((digitsToNat ds : Int)) else none
  | ds => if ds.all Char.isDigit then some ((digitsToNat ds : Int)) else none

/-- Exact fractions standing in for the Python floats used as scheduler
timestamps (`num / den` with `den > 0` by construction). -/
structure Frac where
  num : Int
  den : Int
deriving DecidableEq, Repr

/-- Embed an integer number of seconds. -/
def Frac.ofInt (n : Int) : Frac := ⟨n, 1⟩

/-- Fraction addition (no normalisation; exactness is all that matters). -/
def Frac.add (a b : Frac) : Frac := ⟨a.num * b.den + b.num * a.den, a.den * b.den⟩

/-- Comparison `a ≤ b` by cross-multiplication (denominators positive). -/
def Frac.le (a b : Frac) : Bool := decide (a.num * b.den ≤ b.num * a.den)

/-- Floor of a fraction, as used by `datetime.fromtimestamp`. -/
def Frac.floorI (a : Frac) : Int := a.num.fdiv a.den

/-! ## Permissions (`gopa_lang/permissions.py`) -/

/-- The capability record of `Permissions.__init__`. -/
structure Permissions where
  network : Bool
  files : Bool
  graphics : Bool
  sound : Bool
  packages : Bool
  python_ffi : Bool
  server : Bool
  timers : Bool
  cron : Bool
  state : Bool
deriving DecidableEq, Repr

/-- The normalised parts of a permission string: split on commas, then
strip and lower-case each part (`[p.strip().lower() for p in split(',')]`). -/
def permParts (perm_string : String) : List (List Char) :=
  (splitOnChar ',' perm_string.data).map (fun p => pyLower (pyStrip p))

/-- `Permissions.__init__(perm_string)`: safe defaults (packages on,
everything else off); a non-empty string overrides every flag from
membership in the comma-separated list. -/
def Permissions.init (perm_string : String) : Permissions :=
  if perm_string.data.isEmpty then
    ⟨false, false, false, false, true, false, false, false, false, false⟩
  else
    let perms := permParts perm_string
    let mem : String → Bool := fun s => perms.contains s.data
    ⟨mem "network", mem "files", mem "graphics", mem "sound", mem "packages",
     mem "python" || mem "python_ffi", mem "server", mem "timers", mem "cron",
     mem "state"⟩

/-- `Permissions.check_timers`: ok unless both `timers` and `graphics` are off. -/
def Permissions.check_timers (p : Permissions) : Except String Unit :=
  if !p.timers && !p.graphics then .error "Timer access not allowed" else .ok ()

/-- `Permissions.check_cron`: ok unless both `cron` and `timers` are off. -/
def Permissions.check_cron (p : Permissions) : Except String Unit :=
  if !p.cron && !p.timers then .error "Cron access not allowed" else .ok ()

/-- `Permissions.check_network`. -/
def Permissions.check_network (p : Permissions) : Except String Unit :=
  if !p.network then .error "Network access not allowed" else .ok ()

/-- `Permissions.check_graphics`. -/
def Permissions.check_graphics (p : Permissions) : Except String Unit :=
  if !p.graphics then .error "Graphics access not allowed" else .ok ()

/-! ## Token model and lexer (`gopa_lang/lexer.py`)

The repository's `tokens.py` (the `TokenType` enumeration and `Token`
dataclass) is not under `src/`; the enumeration below is reconstructed from
its uses in `lexer.py`. -/

/-- Token kinds, as referenced by the lexer. -/
inductive TokenType where
  | NUMBER | STRING | IDENTIFIER | NEWLINE | EOF
  | DOT | LBRACKET | RBRACKET | COMMA
  | TIMES | TIMES_OP | DOES_NOT_EQUAL | IS_GREATER_THAN | IS_LESS_THAN
  | IS_AT_LEAST | IS_AT_MOST | DIVIDED
  | IS | BECOMES | SAY | PRINT | CLEAR | SHOW | ASK | FOR | IF | THEN
  | OTHERWISE | REPEAT | FOREVER | UNTIL | DO | BREAK | CONTINUE | STOP
  | DEFINE | WITH | RETURN | END | WHEN | MATCH | TO | ADD | REMOVE | FROM
  | AT | SORT | REVERSE | SHUFFLE | FIND | IN | FILTER | WHERE | MAP
  | USING | ITEM | DICTIONARY | OBJECT | SPLIT | BY | JOIN | REPLACE
  | GET | WRITE | READ | FILE | CREATE | CANVAS | DRAW | CIRCLE
  | RECTANGLE | LINE | TEXT | COLOR | SIZE | MOUSE | CLICKS | ON | WAIT
  | SECONDS | AFTER | EVERY | AND | OR | NOT | PLUS | MINUS | INCREASE
  | DECREASE | YES | NO | NUMBER_TYPE | SCREEN | TABLE | HEADERS | DATA
  | ROWS | USE | INSTALL | PYTHON | CALL | SERVER | PORT | JOB | CRON
  | TRUE | FALSE | NOTHING | PI | EQUALS
deriving DecidableEq, Repr

/-- A token's literal payload (`Token.value`): `pnone` for keywords,
an integer or the raw digits of a float for numbers, the characters of a
string literal, or a (lower-cased) identifier. -/
inductive Payload where
  | pnone
  | pint (n : Int)
  | pfloat (raw : List Char)
  | pstr (s : List Char)
  | pident (s : List Char)
deriving DecidableEq, Repr

/-- A lexed token `(kind, value, line, column)`. -/
structure Token where
  type : TokenType
  value : Payload
  line : Nat
  column : Nat
deriving DecidableEq, Repr

/-- The mutable fields of the Python `Lexer` object. -/
structure LexSt where
  text : List Char
  pos : Nat
  line : Nat
  col : Nat
deriving DecidableEq, Repr

/-- `Lexer.current_char` (and `text[p]` access generally). -/
def charAt (t : List Char) (p : Nat) : Option Char := t.get? p

/-- `Lexer.current_char`. -/
def LexSt.cur (ls : LexSt) : Option Char := charAt ls.text ls.pos

/-- `Lexer.peek(n)`. -/
def LexSt.peekN (ls : LexSt) (n : Nat) : Option Char := charAt ls.text (ls.pos + n)

/-- The Python slice `text[a:b]`. -/
def sliceT (t : List Char) (a b : Nat) : List Char := (t.drop a).take (b - a)

/-- `Lexer.advance`: step one character, tracking line and column. -/
def LexSt.adv (ls : LexSt) : LexSt :=
  match ls.cur with
  | some c =>
    if c = '\n' then { ls with pos := ls.pos + 1, line := ls.line + 1, col := 1 }
    else { ls with pos := ls.pos + 1, col := ls.col + 1 }
  | none => { ls with pos := ls.pos + 1, col := ls.col + 1 }

/-- `Lexer.skip_whitespace`: consume spaces, tabs and carriage returns. -/
def skipWhitespace : Nat → LexSt → LexSt
  | 0, ls => ls
  | n + 1, ls =>
    match ls.cur with
    | some c => if c = ' ' || c = '\t' || c = '\x0d' then skipWhitespace n ls.adv else ls
    | none => ls

/-- `Lexer.skip_comment`: consume to (but not including) the newline. -/
def skipComment : Nat → LexSt → LexSt
  | 0, ls => ls
  | n + 1, ls =>
    match ls.cur with
    | some c => if c = '\n' then ls else skipComment n ls.adv
    | none => ls

/-- The scanning loop of `Lexer.read_number` (returns the final state and
whether a decimal point was consumed). -/
def readNumberLoop : Nat → LexSt → Bool → LexSt × Bool
  | 0, ls, hasDot => (ls, hasDot)
  | n + 1, ls, hasDot =>
    match ls.cur with
    | some c =>
      if c.isDigit then readNumberLoop n ls.adv hasDot
      else if c = '.' then
        if hasDot then (ls, hasDot) else readNumberLoop n ls.adv true
      else (ls, hasDot)
    | none => (ls, hasDot)

/-- `Lexer.read_number`: an integer token if no dot was seen, else a float
token carrying the raw characters. -/
def readNumber (ls : LexSt) : LexSt × Token :=
  let startPos := ls.pos
  let startCol := ls.col
  let (ls1, hasDot) := readNumberLoop (ls.text.length + 1) ls false
  let numStr := sliceT ls.text startPos ls1.pos
  let payload := if hasDot then Payload.pfloat numStr
                 else Payload.pint (digitsToNat numStr : Int)
  (ls1, ⟨TokenType.NUMBER, payload, ls1.line, startCol⟩)

/-- The body loop of `Lexer.read_string`, handling escapes; stops at the
closing quote (left unconsumed) or at end of input. -/
def readStringLoop : Nat → LexSt → Char → List Char → LexSt × List Char
  | 0, ls, _, acc => (ls, acc)
  | n + 1, ls, quote, acc =>
    match ls.cur with
    | none => (ls, acc)
    | some c =>
      if c = quote then (ls, acc)
      else if c = '\\' then
        let ls1 := ls.adv
        match ls1.cur with
        | none => (ls1, acc)
        | some c2 =>
          let m := if c2 = 'n' then '\n'
                   else if c2 = 't' then '\t'
                   else if c2 = '\\' then '\\'
                   else if c2 = quote then quote
                   else c2
          readStringLoop n ls1.adv quote (acc ++ [m])
      else readStringLoop n ls.adv quote (acc ++ [c])

/-- `Lexer.read_string`. -/
def readString (ls : LexSt) : LexSt × Token :=
  let startCol := ls.col
  match ls.cur with
  | none => (ls, ⟨TokenType.STRING, Payload.pstr [], ls.line, startCol⟩)
  | some quote =>
    let ls1 := ls.adv
    let (ls2, value) := readStringLoop (ls.text.length + 1) ls1 quote []
    let ls3 := if ls2.cur = some quote then ls2.adv else ls2
    (ls3, ⟨TokenType.STRING, Payload.pstr value, ls3.line, startCol⟩)

/-- The identifier-scanning loop of `read_identifier_or_keyword`. -/
def readWordLoop : Nat → LexSt → LexSt
  | 0, ls => ls
  | n + 1, ls =>
    match ls.cur with
    | some c => if c.isAlphanum || c = '_' then readWordLoop n ls.adv else ls
    | none => ls

/-- The `next_word` scanning loop in the `is …` lookahead: skip leading
spaces, then collect alphanumeric characters until a space follows a
non-empty word or a non-matching character appears. -/
def nextWordLoop : Nat → LexSt → List Char → LexSt × List Char
  | 0, ls, acc => (ls, acc)
  | n + 1, ls, acc =>
    match ls.cur with
    | none => (ls, acc)
    | some c =>
      if c.isAlphanum || c = ' ' then
        if c = ' ' then
          if acc ≠ [] then (ls, acc)
          else nextWordLoop n ls.adv acc
        else nextWordLoop n ls.adv (acc ++ [c])
      else (ls, acc)

/-- Python `str.endswith` for one suffix, over character lists. -/
def endsWithL (cs suffix : List Char) : Bool :=
  decide (cs.reverse.take suffix.length = suffix.reverse)

/-- First quarter of the keyword table of `read_identifier_or_keyword`
(split into chunks only to keep elaboration fast). -/
def keywordMapA : List (List Char × TokenType) :=
  [("is".data, .IS), ("becomes".data, .BECOMES), ("say".data, .SAY),
   ("print".data, .PRINT), ("clear".data, .CLEAR), ("show".data, .SHOW),
   ("ask".data, .ASK), ("for".data, .FOR), ("if".data, .IF),
   ("then".data, .THEN), ("otherwise".data, .OTHERWISE),
   ("repeat".data, .REPEAT), ("forever".data, .FOREVER),
   ("times".data, .TIMES), ("until".data, .UNTIL), ("do".data, .DO),
   ("break".data, .BREAK), ("continue".data, .CONTINUE),
   ("stop".data, .STOP), ("define".data, .DEFINE), ("with".data, .WITH),
   ("return".data, .RETURN), ("end".data, .END), ("when".data, .WHEN)]

/-- Second quarter of the keyword table. -/
def keywordMapB : List (List Char × TokenType) :=
  [("match".data, .MATCH), ("to".data, .TO), ("add".data, .ADD),
   ("remove".data, .REMOVE), ("from".data, .FROM), ("at".data, .AT),
   ("sort".data, .SORT), ("reverse".data, .REVERSE),
   ("shuffle".data, .SHUFFLE), ("find".data, .FIND), ("in".data, .IN),
   ("filter".data, .FILTER), ("where".data, .WHERE), ("map".data, .MAP),
   ("using".data, .USING), ("item".data, .ITEM),
   ("dictionary".data, .DICTIONARY), ("object".data, .OBJECT),
   ("split".data, .SPLIT), ("by".data, .BY), ("join".data, .JOIN),
   ("replace".data, .REPLACE), ("get".data, .GET), ("write".data, .WRITE)]

/-- Third quarter of the keyword table. -/
def keywordMapC : List (List Char × TokenType) :=
  [("read".data, .READ), ("file".data, .FILE), ("create".data, .CREATE),
   ("canvas".data, .CANVAS), ("draw".data, .DRAW), ("circle".data, .CIRCLE),
   ("rectangle".data, .RECTANGLE), ("line".data, .LINE),
   ("text".data, .TEXT), ("color".data, .COLOR), ("size".data, .SIZE),
   ("mouse".data, .MOUSE), ("clicks".data, .CLICKS), ("on".data, .ON),
   ("wait".data, .WAIT), ("seconds".data, .SECONDS),
   ("after".data, .AFTER), ("every".data, .EVERY), ("and".data, .AND),
   ("or".data, .OR), ("not".data, .NOT), ("plus".data, .PLUS),
   ("minus".data, .MINUS), ("increase".data, .INCREASE)]

/-- Fourth quarter of the keyword table. -/
def keywordMapD : List (List Char × TokenType) :=
  [("decrease".data, .DECREASE), ("yes".data, .YES), ("no".data, .NO),
   ("number".data, .NUMBER_TYPE), ("screen".data, .SCREEN),
   ("table".data, .TABLE), ("headers".data, .HEADERS),
   ("data".data, .DATA), ("rows".data, .ROWS), ("use".data, .USE),
   ("install".data, .INSTALL), ("python".data, .PYTHON),
   ("call".data, .CALL), ("server".data, .SERVER), ("port".data, .PORT),
   ("job".data, .JOB), ("cron".data, .CRON), ("true".data, .TRUE),
   ("false".data, .FALSE), ("nothing".data, .NOTHING), ("pi".data, .PI),
   ("equals".data, .EQUALS)]

/-- The full keyword table, in the source's order. -/
def keywordMap : List (List Char × TokenType) :=
  keywordMapA ++ keywordMapB ++ keywordMapC ++ keywordMapD

/-- Assoc lookup in the keyword table. -/
def keywordLookup : List (List Char × TokenType) → List Char → Option TokenType
  | [], _ => none
  | (k, t) :: rest, w => if k = w then some t else keywordLookup rest w

/-- `Lexer.read_identifier_or_keyword`: scan a word, resolve the
context-sensitive `times`, the `does not equal` / `is …` / `divided by `
lookaheads, and finally the keyword table. -/
def readIdentifierOrKeyword (ls : LexSt) : LexSt × Token :=
  let startPos := ls.pos
  let startCol := ls.col
  let ls1 := readWordLoop (ls.text.length + 1) ls
  let word := pyLower (sliceT ls.text startPos ls1.pos)
  if word = "times".data then
    let peekChar := ls1.cur
    if peekChar = some ' ' || peekChar = some '\n' || peekChar = none then
      let lookbackStart := startPos - 20
      let contextBefore := pyStrip (pyLower (sliceT ls.text lookbackStart startPos))
      if endsWithL contextBefore "repeat".data ||
         (match contextBefore.getLast? with
          | some c => c.isDigit
          | none => false) then
        (ls1, ⟨TokenType.TIMES, Payload.pnone, ls1.line, startCol⟩)
      else (ls1, ⟨TokenType.TIMES_OP, Payload.pnone, ls1.line, startCol⟩)
    else (ls1, ⟨TokenType.TIMES_OP, Payload.pnone, ls1.line, startCol⟩)
  else
    -- `does not equal` lookahead (note: guarded by `peek()`, i.e. the
    -- character one past the current position)
    let afterDoes : Option (LexSt × Token) :=
      if word = "does".data && ls1.peekN 1 = some ' ' then
        let savedPos := ls1.pos
        let savedCol := ls1.col
        let ls2 := ls1.adv
        if pyLower (sliceT ls2.text ls2.pos (ls2.pos + 3)) = "not".data then
          let ls3 := { ls2 with pos := ls2.pos + 3, col := ls2.col + 3 }
          if sliceT ls3.text ls3.pos (ls3.pos + 1) = [' '] then
            let ls4 := { ls3 with pos := ls3.pos + 1, col := ls3.col + 1 }
            if pyLower (sliceT ls4.text ls4.pos (ls4.pos + 5)) = "equal".data then
              let ls5 := { ls4 with pos := ls4.pos + 5, col := ls4.col + 5 }
              some (ls5, ⟨TokenType.DOES_NOT_EQUAL, Payload.pnone, ls5.line, startCol⟩)
            else none
          else none
        else none
      else none
    match afterDoes with
    | some r => r
    | none =>
      -- `is greater than` / `is less than` / `is at least` / `is at most`
      let afterIs : Option (LexSt × Token) :=
        if word = "is".data && ls1.cur = some ' ' then
          let ls2 := ls1.adv
          let (ls3, nextWord) := nextWordLoop (ls1.text.length + 1) ls2 []
          if nextWord = "greater".data then
            if pyLower (sliceT ls3.text ls3.pos (ls3.pos + 5)) = " than".data then
              let ls4 := { ls3 with pos := ls3.pos + 5, col := ls3.col + 5 }
              some (ls4, ⟨TokenType.IS_GREATER_THAN, Payload.pnone, ls4.line, startCol⟩)
            else none
          else if nextWord = "less".data then
            if pyLower (sliceT ls3.text ls3.pos (ls3.pos + 5)) = " than".data then
              let ls4 := { ls3 with pos := ls3.pos + 5, col := ls3.col + 5 }
              some (ls4, ⟨TokenType.IS_LESS_THAN, Payload.pnone, ls4.line, startCol⟩)
            else none
          else if nextWord = "at".data then
            if pyLower (sliceT ls3.text ls3.pos (ls3.pos + 6)) = " least".data then
              let ls4 := { ls3 with pos := ls3.pos + 6, col := ls3.col + 6 }
              some (ls4, ⟨TokenType.IS_AT_LEAST, Payload.pnone, ls4.line, startCol⟩)
            else if pyLower (sliceT ls3.text ls3.pos (ls3.pos + 4)) = " most".data then
              -- a four-character slice is compared against the
              -- five-character string " most", as in the source
              let ls4 := { ls3 with pos := ls3.pos + 4, col := ls3.col + 4 }
              some (ls4, ⟨TokenType.IS_AT_MOST, Payload.pnone, ls4.line, startCol⟩)
            else none
          else none
        else none
      match afterIs with
      | some r => r
      | none =>
        -- `divided by ` lookahead
        let afterDiv : Option (LexSt × Token) :=
          if word = "divided".data && ls1.cur = some ' ' then
            let ls2 := ls1.adv
            if pyLower (sliceT ls2.text ls2.pos (ls2.pos + 3)) = "by ".data then
              let ls3 := { ls2 with pos := ls2.pos + 3, col := ls2.col + 3 }
              some (ls3, ⟨TokenType.DIVIDED, Payload.pnone, ls3.line, startCol⟩)
            else none
          else none
        match afterDiv with
        | some r => r
        | none =>
          match keywordLookup keywordMap word with
          | some t => (ls1, ⟨t, Payload.pnone, ls1.line, startCol⟩)
          | none => (ls1, ⟨TokenType.IDENTIFIER, Payload.pident word, ls1.line, startCol⟩)

/-- The main loop of `Lexer.tokenize`. -/
def tokenizeLoop : Nat → LexSt → List Token → List Token
  | 0, ls, acc => acc ++ [⟨TokenType.EOF, Payload.pnone, ls.line, ls.col⟩]
  | n + 1, ls, acc =>
    if ls.pos < ls.text.length then
      let ls := skipWhitespace (ls.text.length + 1) ls
      match ls.cur with
      | none => acc ++ [⟨TokenType.EOF, Payload.pnone, ls.line, ls.col⟩]
      | some c =>
        if c = '#' then tokenizeLoop n (skipComment (ls.text.length + 1) ls) acc
        else if c = '\n' then
          tokenizeLoop n ls.adv (acc ++ [⟨TokenType.NEWLINE, Payload.pnone, ls.line, ls.col⟩])
        else if c.isDigit then
          let (ls', t) := readNumber ls
          tokenizeLoop n ls' (acc ++ [t])
        else if c = '"' || c = '\'' then
          let (ls', t) := readString ls
          tokenizeLoop n ls' (acc ++ [t])
        else if c = '.' then
          tokenizeLoop n ls.adv (acc ++ [⟨TokenType.DOT, Payload.pnone, ls.line, ls.col⟩])
        else if c = '[' then
          tokenizeLoop n ls.adv (acc ++ [⟨TokenType.LBRACKET, Payload.pnone, ls.line, ls.col⟩])
        else if c = ']' then
          tokenizeLoop n ls.adv (acc ++ [⟨TokenType.RBRACKET, Payload.pnone, ls.line, ls.col⟩])
        else if c = ',' then
          tokenizeLoop n ls.adv (acc ++ [⟨TokenType.COMMA, Payload.pnone, ls.line, ls.col⟩])
        else if c = '=' then tokenizeLoop n ls.adv acc
        else if c.isAlpha || c = '_' then
          let (ls', t) := readIdentifierOrKeyword ls
          tokenizeLoop n ls' (acc ++ [t])
        else tokenizeLoop n ls.adv acc
    else acc ++ [⟨TokenType.EOF, Payload.pnone, ls.line, ls.col⟩]

/-- `Lexer(text).tokenize()`. -/
def tokenize (text : List Char) : List Token :=
  tokenizeLoop (text.length + 1) ⟨text, 0, 1, 1⟩ []

/-! ## Values, heap and runtime scopes
(`gopa_lang/runtime.py`, `gopa_lang/interpreter.py`)

Gopa values are Python objects: numbers, strings, booleans, `None`, and
reference-shared lists and dictionaries (object literals also evaluate to
Python dicts).  Lists and dictionaries live in an explicit heap and a value
holds only the reference, so aliasing and in-place mutation behave as in
Python.  Python floats arise in this fragment only from `divided_by` and are
modelled as exact fractions; no verified claim depends on float rounding. -/

/-- A Gopa runtime value. -/
inductive Value where
  | VInt (n : Int)
  | VFrac (q : Frac)
  | VBool (b : Bool)
  | VStr (s : String)
  | VNothing
  | VList (r : Nat)
  | VDict (r : Nat)
deriving DecidableEq, Repr

export Value (VInt VFrac VBool VStr VNothing VList VDict)

/-- A heap object: a Python list or dict (dict keys are arbitrary values,
compared with Python equality). -/
inductive HObj where
  | HList (xs : List Value)
  | HDict (kvs : List (Value × Value))
deriving DecidableEq, Repr

/-- Python exceptions relevant to the interpreter: `RuntimeError`,
`NameError`, `TypeError`, the four control signals, and fuel exhaustion
(an artefact of the fueled embedding, never raised by any run appearing in
a theorem below). -/
inductive Exn where
  | rte (msg : String)
  | nameErr (msg : String)
  | typeErr (msg : String)
  | brk
  | cont
  | stop
  | ret (v : Value)
  | timeout
deriving DecidableEq, Repr

/-- Assoc-list lookup (Python dict access by string key). -/
def lookupA {α : Type} : List (String × α) → String → Option α
  | [], _ => none
  | (k, v) :: rest, key => if k = key then some v else lookupA rest key

/-- Assoc-list update preserving insertion order (`d[k] = v`). -/
def setA {α : Type} : List (String × α) → String → α → List (String × α)
  | [], key, v => [(key, v)]
  | (k, w) :: rest, key, v =>
    if k = key then (k, v) :: rest else (k, w) :: setA rest key v

/-- Assoc-list removal (`d.pop(k, None)`). -/
def popA {α : Type} : List (String × α) → String → List (String × α)
  | [], _ => []
  | (k, w) :: rest, key => if k = key then rest else (k, w) :: popA rest key

/-! Expressions and statements of the evaluated fragment, following
`gopa_lang/ast_nodes.py`.  The fragment covers the node kinds the claims
quantify over (literals, identifiers, binary and unary operators, index
access, list literals, function calls, filter and map; assignments,
mutations, `say`, `if`, the four control-signal statements, function
definitions, `return`, and expression statements). -/

/-- Expression nodes. -/
inductive Expr where
  | numLit (n : Int)
  | strLit (s : String)
  | boolLit (b : Bool)
  | nothingLit
  | ident (name : String)
  | binaryOp (left : Expr) (op : String) (right : Expr)
  | unaryOp (op : String) (operand : Expr)
  | indexAccess (obj : Expr) (index : Expr)
  | listLit (elems : List Expr)
  | functionCall (name : String) (args : List Expr)
  | filterExpr (listE : Expr) (cond : Expr)
  | mapExpr (listE : Expr) (transform : Expr)

/-- Statement nodes. -/
inductive Stmt where
  | assign (target : Expr) (value : Expr)
  | mutate (target : Expr) (op : String) (value : Expr)
  | say (parts : List Expr)
  | ifStmt (cond : Expr) (thenB : List Stmt) (elseB : Option (List Stmt))
  | breakStmt
  | continueStmt
  | stopStmt
  | funcDef (name : String) (params : List String) (body : List Stmt)
  | returnStmt (value : Option Expr)
  | callStmt (name : String) (args : List Expr)

/-- A user function value (`FunctionDef` carrying its `closure_env`
snapshot, as built by `execute_function_def`). -/
structure FuncV where
  params : List String
  body : List Stmt
  closureEnv : List (String × Value)

/-- One scope frame of `runtime.py`: a variables dict and a functions dict. -/
structure Frame where
  vars : List (String × Value)
  funcs : List (String × FuncV)

/-- A `Runtime` chain: the current frame and its parents, innermost
first (`parent` pointers). -/
structure Rt where
  cur : Frame
  parents : List Frame

/-- The interpreter state: scope chain, heap, emitted output lines
(`print(..., file=self.output_stream)`), and the debug flag. -/
structure St where
  rt : Rt
  heap : List HObj
  output : List String
  debug : Bool

/-- `Runtime.get`: walk the scope chain for a variable. -/
def Rt.getVarOpt (rt : Rt) (name : String) : Option Value :=
  match lookupA rt.cur.vars name with
  | some v => some v
  | none => walk rt.parents
where
  walk : List Frame → Option Value
    | [] => none
    | f :: fs =>
      match lookupA f.vars name with
      | some v => some v
      | none => walk fs

/-- `Runtime.get_function`: walk the scope chain for a function. -/
def Rt.getFuncOpt (rt : Rt) (name : String) : Option FuncV :=
  match lookupA rt.cur.funcs name with
  | some f => some f
  | none => walk rt.parents
where
  walk : List Frame → Option FuncV
    | [] => none
    | f :: fs =>
      match lookupA f.funcs name with
      | some v => some v
      | none => walk fs

/-- `Runtime.set`: write a variable in the current frame only. -/
def St.setVar (st : St) (name : String) (v : Value) : St :=
  { st with rt := { st.rt with cur := { st.rt.cur with vars := setA st.rt.cur.vars name v } } }

/-- `variables.pop(name, None)` on the current frame. -/
def St.popVar (st : St) (name : String) : St :=
  { st with rt := { st.rt with cur := { st.rt.cur with vars := popA st.rt.cur.vars name } } }

/-- `variables.get(name)` on the current frame: Python returns the object
`None` both for a missing key and for a stored `None`, so the two are
indistinguishable at this call site (as exploited by `evaluate_filter`). -/
def St.curVarGetD (st : St) (name : String) : Value :=
  (lookupA st.rt.cur.vars name).getD VNothing

/-- Make a new frame current, with the old chain as its parents. -/
def St.pushFrame (st : St) (f : Frame) : St :=
  { st with rt := ⟨f, st.rt.cur :: st.rt.parents⟩ }

/-- Restore the saved runtime (`self.runtime = old_runtime`). -/
def St.popFrame (st : St) : St :=
  match st.rt.parents with
  | p :: ps => { st with rt := ⟨p, ps⟩ }
  | [] => st

/-- Append one printed line to the output stream. -/
def emit (st : St) (msg : String) : St := { st with output := st.output ++ [msg] }

/-- The elements of the heap list behind reference `r` (references are
well-formed by construction, so the default is never observed). -/
def St.heapList (st : St) (r : Nat) : List Value :=
  match st.heap.get? r with
  | some (HObj.HList xs) => xs
  | _ => []

/-- The key-value pairs of the heap dict behind reference `r`. -/
def St.heapDict (st : St) (r : Nat) : List (Value × Value) :=
  match st.heap.get? r with
  | some (HObj.HDict kvs) => kvs
  | _ => []

/-- Allocate a fresh heap list and return the referencing value. -/
def St.allocList (st : St) (xs : List Value) : Value × St :=
  (VList st.heap.length, { st with heap := st.heap ++ [HObj.HList xs] })

/-- Overwrite the heap object behind reference `r`. -/
def St.writeHeap (st : St) (r : Nat) (o : HObj) : St :=
  { st with heap := st.heap.set r o }

/-- Python `repr(type(v))`, as interpolated by `f"... {type(obj)}"`. -/
def typeName : Value → String
  | VInt _ => "<class " ++ quo "int" ++ ">"
  | VFrac _ => "<class " ++ quo "float" ++ ">"
  | VBool _ => "<class " ++ quo "bool" ++ ">"
  | VStr _ => "<class " ++ quo "str" ++ ">"
  | VNothing => "<class " ++ quo "NoneType" ++ ">"
  | VList _ => "<class " ++ quo "list" ++ ">"
  | VDict _ => "<class " ++ quo "dict" ++ ">"

/-- Python's short type name, as used in operand-type error messages. -/
def shortTypeName : Value → String
  | VInt _ => "int"
  | VFrac _ => "float"
  | VBool _ => "bool"
  | VStr _ => "str"
  | VNothing => "NoneType"
  | VList _ => "list"
  | VDict _ => "dict"

/-- Python `isinstance(v, int)` (booleans are ints), yielding the integer. -/
def toPyInt : Value → Option Int
  | VInt n => some n
  | VBool b => some (if b then 1 else 0)
  | _ => none

/-- A value as an exact fraction, when it is a Python number. -/
def toNum : Value → Option Frac
  | VInt n => some ⟨n, 1⟩
  | VBool b => some ⟨if b then 1 else 0, 1⟩
  | VFrac q => some q
  | _ => none

/-- Python truthiness: `None`, `False`, zero, the empty string and empty
containers are falsy. -/
def pyTruthy (st : St) : Value → Bool
  | VInt n => n ≠ 0
  | VFrac q => q.num ≠ 0
  | VBool b => b
  | VStr s => s ≠ ""
  | VNothing => false
  | VList r => (st.heapList r).length ≠ 0
  | VDict r => (st.heapDict r).length ≠ 0

/-- Python equality on values (element-wise through the heap for
containers; booleans equal the corresponding integers). -/
def pyEqV : Nat → St → Value → Value → Bool
  | 0, _, _, _ => false
  | _ + 1, _, VStr a, VStr b => a = b
  | _ + 1, _, VNothing, VNothing => true
  | fuel + 1, st, VList a, VList b =>
    let xs := st.heapList a
    let ys := st.heapList b
    xs.length = ys.length &&
      (List.zip xs ys).all (fun p => pyEqV fuel st p.1 p.2)
  | fuel + 1, st, VDict a, VDict b =>
    let xs := st.heapDict a
    let ys := st.heapDict b
    xs.length = ys.length &&
      xs.all (fun p =>
        match ys.find? (fun q => pyEqV fuel st p.1 q.1) with
        | some q => pyEqV fuel st p.2 q.2
        | none => false)
  | _ + 1, _, a, b =>
    match toNum a, toNum b with
    | some x, some y => x.num * y.den = y.num * x.den
    | _, _ => false

/-- Lexicographic order on character lists (Python string comparison). -/
def lexLtChars : List Char → List Char → Bool
  | [], [] => false
  | [], _ :: _ => true
  | _ :: _, [] => false
  | a :: as, b :: bs =>
    if a < b then true else if b < a then false else lexLtChars as bs

/-- Python `a < b` (numbers by value, strings lexicographically, lists
element-wise); mixed kinds raise `TypeError`. -/
def pyLtV : Nat → St → Value → Value → Except Exn Bool
  | 0, _, _, _ => .error .timeout
  | _ + 1, _, VStr a, VStr b => .ok (lexLtChars a.data b.data)
  | fuel + 1, st, VList a, VList b =>
    let rec go : Nat → List Value → List Value → Except Exn Bool
      | 0, _, _ => .error .timeout
      | _ + 1, [], [] => .ok false
      | _ + 1, [], _ :: _ => .ok true
      | _ + 1, _ :: _, [] => .ok false
      | f + 1, x :: xs, y :: ys =>
        if pyEqV f st x y then go f xs ys
        else pyLtV f st x y
    go fuel (st.heapList a) (st.heapList b)
  | _ + 1, _, a, b =>
    match toNum a, toNum b with
    | some x, some y => .ok (decide (x.num * y.den < y.num * x.den))
    | _, _ =>
      .error (.typeErr ("unorderable types: " ++ shortTypeName a ++ " and " ++ shortTypeName b))

/-- Python `str(value)` for values other than strings (`repr` inside
containers); fractions are printed as `num/den`, a formatting stand-in for
Python float formatting which no claim depends on. -/
def pyReprV : Nat → St → Value → String
  | 0, _, _ => ""
  | _ + 1, _, VInt n => toString n
  | _ + 1, _, VFrac q => toString q.num ++ "/" ++ toString q.den
  | _ + 1, _, VBool b => if b then "True" else "False"
  | _ + 1, _, VStr s => quo s
  | _ + 1, _, VNothing => "None"
  | fuel + 1, st, VList r =>
    "[" ++ String.intercalate ", " ((st.heapList r).map (pyReprV fuel st)) ++ "]"
  | fuel + 1, st, VDict r =>
    "\x7b" ++
      String.intercalate ", "
        ((st.heapDict r).map (fun p => pyReprV fuel st p.1 ++ ": " ++ pyReprV fuel st p.2)) ++
      "\x7d"

/-- Python `str(value)`. -/
def pyStrV (fuel : Nat) (st : St) : Value → String
  | VStr s => s
  | v => pyReprV fuel st v

/-- The `TypeError` for an unsupported binary operation. -/
def unsupportedOp (sym : String) (l r : Value) : Exn :=
  .typeErr ("unsupported operand type(s) for " ++ sym ++ ": " ++
    quo (shortTypeName l) ++ " and " ++ quo (shortTypeName r))

/-- Python `l + r`. -/
def pyAdd (st : St) (l r : Value) : Except Exn Value × St :=
  match toPyInt l, toPyInt r with
  | some a, some b => (.ok (VInt (a + b)), st)
  | _, _ =>
    match toNum l, toNum r with
    | some a, some b => (.ok (VFrac (a.add b)), st)
    | _, _ =>
      match l, r with
      | VStr a, VStr b => (.ok (VStr (a ++ b)), st)
      | VList a, VList b =>
        let (v, st') := st.allocList (st.heapList a ++ st.heapList b)
        (.ok v, st')
      | _, _ => (.error (unsupportedOp "+" l r), st)

/-- Python `l - r`. -/
def pySub (st : St) (l r : Value) : Except Exn Value × St :=
  match toPyInt l, toPyInt r with
  | some a, some b => (.ok (VInt (a - b)), st)
  | _, _ =>
    match toNum l, toNum r with
    | some a, some b => (.ok (VFrac ⟨a.num * b.den - b.num * a.den, a.den * b.den⟩), st)
    | _, _ => (.error (unsupportedOp "-" l r), st)

/-- Replicate a list `n` times (Python sequence repetition). -/
def seqRepeat {α : Type} (n : Int) (xs : List α) : List α :=
  (List.range n.toNat).foldl (fun acc _ => acc ++ xs) []

/-- Python `l * r`. -/
def pyMul (st : St) (l r : Value) : Except Exn Value × St :=
  match toPyInt l, toPyInt r with
  | some a, some b => (.ok (VInt (a * b)), st)
  | _, _ =>
    match toNum l, toNum r with
    | some a, some b => (.ok (VFrac ⟨a.num * b.num, a.den * b.den⟩), st)
    | _, _ =>
      match l, r with
      | VStr s, _ =>
        match toPyInt r with
        | some n => (.ok (VStr ⟨seqRepeat n s.data⟩), st)
        | none => (.error (unsupportedOp "*" l r), st)
      | _, VStr s =>
        match toPyInt l with
        | some n => (.ok (VStr ⟨seqRepeat n s.data⟩), st)
        | none => (.error (unsupportedOp "*" l r), st)
      | VList a, _ =>
        match toPyInt r with
        | some n =>
          let (v, st') := st.allocList (seqRepeat n (st.heapList a))
          (.ok v, st')
        | none => (.error (unsupportedOp "*" l r), st)
      | _, VList b =>
        match toPyInt l with
        | some n =>
          let (v, st') := st.allocList (seqRepeat n (st.heapList b))
          (.ok v, st')
        | none => (.error (unsupportedOp "*" l r), st)
      | _, _ => (.error (unsupportedOp "*" l r), st)

/-- Exact division of fractions, keeping the denominator positive. -/
def fracDiv (a b : Frac) : Frac :=
  if b.num < 0 then ⟨-(a.num * b.den), a.den * (-b.num)⟩
  else ⟨a.num * b.den, a.den * b.num⟩

/-- `evaluate_binary_op`, applied to the two already-evaluated operands:
dispatch on `node.op` exactly as the `if`/`elif` chain does.  `and` and
`or` return one of the operands by truthiness (`left and right`,
`left or right` in Python applied to evaluated values). -/
def binOpApply (fuel : Nat) (st : St) (op : String) (l r : Value) :
    Except Exn Value × St :=
  if op = "plus" then pyAdd st l r
  else if op = "minus" then pySub st l r
  else if op = "times" then pyMul st l r
  else if op = "divided_by" then
    if pyEqV fuel st r (VInt 0) then (.error (.rte "Division by zero"), st)
    else
      match toNum l, toNum r with
      | some a, some b => (.ok (VFrac (fracDiv a b)), st)
      | _, _ => (.error (unsupportedOp "/" l r), st)
  else if op = "equals" then (.ok (VBool (pyEqV fuel st l r)), st)
  else if op = "does_not_equal" then (.ok (VBool (!pyEqV fuel st l r)), st)
  else if op = "is_greater_than" then
    match pyLtV fuel st r l with
    | .ok b => (.ok (VBool b), st)
    | .error e => (.error e, st)
  else if op = "is_less_than" then
    match pyLtV fuel st l r with
    | .ok b => (.ok (VBool b), st)
    | .error e => (.error e, st)
  else if op = "is_at_least" then
    match pyLtV fuel st l r with
    | .ok b => (.ok (VBool !b), st)
    | .error e => (.error e, st)
  else if op = "is_at_most" then
    match pyLtV fuel st r l with
    | .ok b => (.ok (VBool !b), st)
    | .error e => (.error e, st)
  else if op = "and" then (.ok (if pyTruthy st l then r else l), st)
  else if op = "or" then (.ok (if pyTruthy st l then l else r), st)
  else (.error (.rte ("Unknown binary operator: " ++ op)), st)

/-! ## Deep copy (`child_scope` uses `copy.deepcopy` on the functions map)

`deepcopy` clones list and dict values recursively, so closure values held
in copied function entries stop aliasing the originals.  The fuel guards
against cyclic heap structures (Python uses a memo table there; no claim
involves a cyclic or internally-shared structure). -/

mutual

/-- Deep-copy one value, cloning heap objects. -/
def deepCopyVal : Nat → List HObj → Value → Value × List HObj
  | 0, heap, v => (v, heap)
  | fuel + 1, heap, VList r =>
    match heap.get? r with
    | some (HObj.HList xs) =>
      let (ys, heap1) := deepCopyVals fuel heap xs
      (VList heap1.length, heap1 ++ [HObj.HList ys])
    | _ => (VList r, heap)
  | fuel + 1, heap, VDict r =>
    match heap.get? r with
    | some (HObj.HDict kvs) =>
      let (kvs1, heap1) := deepCopyKVs fuel heap kvs
      (VDict heap1.length, heap1 ++ [HObj.HDict kvs1])
    | _ => (VDict r, heap)
  | _ + 1, heap, v => (v, heap)

/-- Deep-copy a list of values left to right. -/
def deepCopyVals : Nat → List HObj → List Value → List Value × List HObj
  | 0, heap, _ => ([], heap)
  | _ + 1, heap, [] => ([], heap)
  | fuel + 1, heap, v :: vs =>
    let (v1, heap1) := deepCopyVal fuel heap v
    let (vs1, heap2) := deepCopyVals fuel heap1 vs
    (v1 :: vs1, heap2)

/-- Deep-copy dict entries. -/
def deepCopyKVs : Nat → List HObj → List (Value × Value) →
    List (Value × Value) × List HObj
  | 0, heap, _ => ([], heap)
  | _ + 1, heap, [] => ([], heap)
  | fuel + 1, heap, (k, v) :: kvs =>
    let (k1, heap1) := deepCopyVal fuel heap k
    let (v1, heap2) := deepCopyVal fuel heap1 v
    let (kvs1, heap3) := deepCopyKVs fuel heap2 kvs
    ((k1, v1) :: kvs1, heap3)

end

/-- Deep-copy a closure environment. -/
def deepCopyEnv : Nat → List HObj → List (String × Value) →
    List (String × Value) × List HObj
  | 0, heap, _ => ([], heap)
  | _ + 1, heap, [] => ([], heap)
  | fuel + 1, heap, (k, v) :: rest =>
    let (v1, heap1) := deepCopyVal fuel heap v
    let (rest1, heap2) := deepCopyEnv fuel heap1 rest
    ((k, v1) :: rest1, heap2)

/-- Deep-copy a functions map (`deepcopy(self.functions)`): statement
bodies and parameter lists are immutable, closure values are cloned. -/
def deepCopyFuncs : Nat → List HObj → List (String × FuncV) →
    List (String × FuncV) × List HObj
  | 0, heap, _ => ([], heap)
  | _ + 1, heap, [] => ([], heap)
  | fuel + 1, heap, (k, f) :: rest =>
    let (env1, heap1) := deepCopyEnv fuel heap f.closureEnv
    let (rest1, heap2) := deepCopyFuncs fuel heap1 rest
    ((k, ⟨f.params, f.body, env1⟩) :: rest1, heap2)

/-! ## Builtins (`gopa_lang/builtin_stdlib.py`)

Only the names matter to `evaluate_function_call` (the `BUILTINS`
membership test shadows user functions).  The deterministic, non-float
builtins are modelled faithfully; the random and transcendental-float ones
are outside the modeled fragment and map to an error value that no theorem
below ever exercises. -/

/-- The keys of the `BUILTINS` dict. -/
def BUILTINS_names : List String :=
  ["random", "random_int", "floor", "ceil", "round", "abs", "sqrt", "sin",
   "cos", "tan", "pow", "log", "max", "min", "sum", "len", "range",
   "type_of", "to_string", "to_number", "print_table"]

/-- `builtin_type_of` (note booleans are tested before numbers). -/
def builtinTypeOf : Value → String
  | VNothing => "nothing"
  | VBool _ => "boolean"
  | VInt _ => "number"
  | VFrac _ => "number"
  | VStr _ => "string"
  | VList _ => "list"
  | VDict _ => "dictionary"

/-- Numeric fold for `builtin_sum`. -/
def sumNums : List Value → Value → Except Exn Value
  | [], acc => .ok acc
  | v :: vs, acc =>
    match toPyInt acc, toPyInt v with
    | some a, some b => sumNums vs (VInt (a + b))
    | _, _ =>
      match toNum acc, toNum v with
      | some a, some b => sumNums vs (VFrac (a.add b))
      | _, _ => .error (unsupportedOp "+" acc v)

/-- Fold for `builtin_max` / `builtin_min` using Python `<`. -/
def extremum (fuel : Nat) (st : St) (takeGreater : Bool) :
    List Value → Value → Except Exn Value
  | [], best => .ok best
  | v :: vs, best =>
    match pyLtV fuel st best v with
    | .error e => .error e
    | .ok lt =>
      let best' := if takeGreater then (if lt then v else best)
                   else (if lt then best else v)
      extremum fuel st takeGreater vs best'

/-- Dispatch `BUILTINS[name](*args)` for the modeled builtins. -/
def applyBuiltin (fuel : Nat) (st : St) (name : String) (args : List Value) :
    Except Exn Value × St :=
  if name = "len" then
    match args with
    | [VStr s] => (.ok (VInt s.length), st)
    | [VList r] => (.ok (VInt (st.heapList r).length), st)
    | [VDict r] => (.ok (VInt (st.heapDict r).length), st)
    | [v] => (.error (.typeErr ("Cannot get length of " ++ typeName v)), st)
    | _ => (.error (.typeErr ("invalid arguments to builtin " ++ name)), st)
  else if name = "range" then
    match args with
    | [a, b] =>
      match toPyInt a, toPyInt b with
      | some x, some y =>
        let (v, st') := st.allocList ((List.range (y - x).toNat).map (fun i => VInt (x + i)))
        (.ok v, st')
      | _, _ => (.error (.typeErr ("invalid arguments to builtin " ++ name)), st)
    | _ => (.error (.typeErr ("invalid arguments to builtin " ++ name)), st)
  else if name = "type_of" then
    match args with
    | [v] => (.ok (VStr (builtinTypeOf v)), st)
    | _ => (.error (.typeErr ("invalid arguments to builtin " ++ name)), st)
  else if name = "to_string" then
    match args with
    | [VNothing] => (.ok (VStr ""), st)
    | [v] => (.ok (VStr (pyStrV fuel st v)), st)
    | _ => (.error (.typeErr ("invalid arguments to builtin " ++ name)), st)
  else if name = "abs" then
    match args with
    | [v] =>
      match toPyInt v with
      | some n => (.ok (VInt (if n < 0 then -n else n)), st)
      | none =>
        match v with
        | VFrac q => (.ok (VFrac ⟨if q.num < 0 then -q.num else q.num, q.den⟩), st)
        | _ => (.error (.typeErr ("bad operand type for abs: " ++ quo (shortTypeName v))), st)
    | _ => (.error (.typeErr ("invalid arguments to builtin " ++ name)), st)
  else if name = "floor" then
    match args with
    | [v] =>
      match toPyInt v with
      | some n => (.ok (VInt n), st)
      | none =>
        match v with
        | VFrac q => (.ok (VInt q.floorI), st)
        | _ => (.error (.typeErr ("must be real number, not " ++ shortTypeName v)), st)
    | _ => (.error (.typeErr ("invalid arguments to builtin " ++ name)), st)
  else if name = "ceil" then
    match args with
    | [v] =>
      match toPyInt v with
      | some n => (.ok (VInt n), st)
      | none =>
        match v with
        | VFrac q => (.ok (VInt (-((-q.num).fdiv q.den))), st)
        | _ => (.error (.typeErr ("must be real number, not " ++ shortTypeName v)), st)
    | _ => (.error (.typeErr ("invalid arguments to builtin " ++ name)), st)
  else if name = "sum" then
    match args with
    | [VList r] =>
      match sumNums (st.heapList r) (VInt 0) with
      | .ok v => (.ok v, st)
      | .error e => (.error e, st)
    | _ => (.error (.typeErr ("invalid arguments to builtin " ++ name)), st)
  else if name = "max" || name = "min" then
    match args with
    | [VList r] =>
      match st.heapList r with
      | [] => (.ok VNothing, st)
      | v :: vs =>
        match extremum fuel st (name = "max") vs v with
        | .ok w => (.ok w, st)
        | .error e => (.error e, st)
    | _ => (.error (.typeErr ("invalid arguments to builtin " ++ name)), st)
  else
    (.error (.rte ("builtin " ++ name ++ " is outside the modeled fragment")), st)

/-! ## The evaluator (`gopa_lang/interpreter.py`)

`Interpreter.evaluate` wraps every expression evaluation in
`try … except RuntimeError`: with debug off the error message is printed
and the expression yields `None`; `NameError`, `TypeError` and the control
signals pass through.  `Interpreter.execute` does the same per statement,
explicitly re-raising the four control signals first.  The `…Core`
functions below are the try-bodies; the wrappers are the handlers. -/

/-- The `except RuntimeError` handler of `Interpreter.evaluate`. -/
def evalWrap (r : Except Exn Value × St) : Except Exn Value × St :=
  match r with
  | (.error (.rte msg), st) =>
    if st.debug then (.error (.rte msg), st) else (.ok VNothing, emit st msg)
  | other => other

/-- The `except` chain of `Interpreter.execute`: control signals re-raise,
`RuntimeError` prints and continues, everything else passes through. -/
def stmtWrap (r : Except Exn Value × St) : Except Exn Value × St :=
  match r with
  | (.error (.rte msg), st) =>
    if st.debug then (.error (.rte msg), st) else (.ok VNothing, emit st msg)
  | other => other

/-- The error raised for a name missing from the variable scope chain. -/
def undefinedVar (name : String) : Exn :=
  .nameErr ("Variable " ++ quo name ++ " not defined")

/-- The message used both by `Runtime.get_function`'s `NameError` and by
`evaluate_function_call`'s converted `RuntimeError`. -/
def undefinedFuncMsg (name : String) : String :=
  "Function " ++ quo name ++ " not defined"

/-- `type(node)` for an AST node, for the target error messages. -/
def astTypeName (e : Expr) : String :=
  let n :=
    match e with
    | .numLit _ => "NumberLiteral"
    | .strLit _ => "StringLiteral"
    | .boolLit _ => "BooleanLiteral"
    | .nothingLit => "NothingLiteral"
    | .ident _ => "Identifier"
    | .binaryOp _ _ _ => "BinaryOp"
    | .unaryOp _ _ => "UnaryOp"
    | .indexAccess _ _ => "IndexAccess"
    | .listLit _ => "ListLiteral"
    | .functionCall _ _ => "FunctionCall"
    | .filterExpr _ _ => "FilterExpression"
    | .mapExpr _ _ => "MapExpression"
  "<class " ++ quo ("gopa_lang.ast_nodes." ++ n) ++ ">"

/-- Bind formal parameters positionally in the freshly pushed call frame:
missing arguments are bound to `Nothing`, extra arguments are dropped. -/
def bindParams (st : St) : List String → List Value → St
  | [], _ => st
  | p :: ps, [] => bindParams (st.setVar p VNothing) ps []
  | p :: ps, a :: as => bindParams (st.setVar p a) ps as

mutual

/-- The dispatch body of `Interpreter.evaluate` (inside its `try`). -/
def evalExprCore : Nat → St → Expr → Except Exn Value × St
  | 0, st, _ => (.error .timeout, st)
  | _ + 1, st, .numLit n => (.ok (VInt n), st)
  | _ + 1, st, .strLit s => (.ok (VStr s), st)
  | _ + 1, st, .boolLit b => (.ok (VBool b), st)
  | _ + 1, st, .nothingLit => (.ok VNothing, st)
  | _ + 1, st, .ident name =>
    match st.rt.getVarOpt name with
    | some v => (.ok v, st)
    | none => (.error (undefinedVar name), st)
  | fuel + 1, st, .binaryOp l op r =>
    match evalWrap (evalExprCore fuel st l) with
    | (.error e, st1) => (.error e, st1)
    | (.ok lv, st1) =>
      match evalWrap (evalExprCore fuel st1 r) with
      | (.error e, st2) => (.error e, st2)
      | (.ok rv, st2) => binOpApply fuel st2 op lv rv
  | fuel + 1, st, .unaryOp op e =>
    match evalWrap (evalExprCore fuel st e) with
    | (.error e1, st1) => (.error e1, st1)
    | (.ok v, st1) =>
      if op = "not" then (.ok (VBool (!pyTruthy st1 v)), st1)
      else (.error (.rte ("Unknown unary operator: " ++ op)), st1)
  | fuel + 1, st, .indexAccess o i =>
    match evalWrap (evalExprCore fuel st o) with
    | (.error e, st1) => (.error e, st1)
    | (.ok obj, st1) =>
      match evalWrap (evalExprCore fuel st1 i) with
      | (.error e, st2) => (.error e, st2)
      | (.ok idx, st2) =>
        match obj with
        | VList r =>
          match toPyInt idx with
          | some k =>
            let xs := st2.heapList r
            if 0 ≤ k ∧ k < xs.length then (.ok (xs.getD k.toNat VNothing), st2)
            else (.ok VNothing, st2)
          | none => (.ok VNothing, st2)
        | VDict r =>
          match (st2.heapDict r).find? (fun p => pyEqV fuel st2 p.1 idx) with
          | some p => (.ok p.2, st2)
          | none => (.ok VNothing, st2)
        | _ => (.error (.rte ("Cannot index " ++ typeName obj)), st2)
  | fuel + 1, st, .listLit es =>
    match evalExprList fuel st es with
    | (.error e, st1) => (.error e, st1)
    | (.ok vs, st1) =>
      let (v, st2) := st1.allocList vs
      (.ok v, st2)
  | fuel + 1, st, .functionCall name args => callFunction fuel st name args
  | fuel + 1, st, .filterExpr listE cond =>
    match evalWrap (evalExprCore fuel st listE) with
    | (.error e, st1) => (.error e, st1)
    | (.ok v, st1) =>
      match v with
      | VList r => evalFilterLoop fuel st1 r 0 [] cond
      | _ => (.error (.rte "filter expects a list"), st1)
  | fuel + 1, st, .mapExpr listE transform =>
    match evalWrap (evalExprCore fuel st listE) with
    | (.error e, st1) => (.error e, st1)
    | (.ok v, st1) =>
      match v with
      | VList r => evalMapLoop fuel st1 r 0 [] transform
      | _ => (.error (.rte "map expects a list"), st1)

/-- `[self.evaluate(arg) for arg in args]`. -/
def evalExprList : Nat → St → List Expr → Except Exn (List Value) × St
  | 0, st, _ => (.error .timeout, st)
  | _ + 1, st, [] => (.ok [], st)
  | fuel + 1, st, e :: es =>
    match evalWrap (evalExprCore fuel st e) with
    | (.error ex, st1) => (.error ex, st1)
    | (.ok v, st1) =>
      match evalExprList fuel st1 es with
      | (.error ex, st2) => (.error ex, st2)
      | (.ok vs, st2) => (.ok (v :: vs), st2)

/-- `evaluate_function_call`: builtins shadow user functions; otherwise
resolve the function, evaluate arguments, push a child scope of the
*current* (caller) runtime, bind parameters, run the body, catch `Return`,
fall through to `Nothing`, always restore the runtime, and convert any
`NameError` into `RuntimeError("Function … not defined")`. -/
def callFunction : Nat → St → String → List Expr → Except Exn Value × St
  | 0, st, _, _ => (.error .timeout, st)
  | fuel + 1, st, name, argEs =>
    if BUILTINS_names.contains name then
      match evalExprList fuel st argEs with
      | (.error e, st1) => (.error e, st1)
      | (.ok args, st1) => applyBuiltin fuel st1 name args
    else
      let inner : Except Exn Value × St :=
        match st.rt.getFuncOpt name with
        | none => (.error (.nameErr (undefinedFuncMsg name)), st)
        | some f =>
          match evalExprList fuel st argEs with
          | (.error e, st1) => (.error e, st1)
          | (.ok args, st1) =>
            let (funcs1, heap1) := deepCopyFuncs fuel st1.heap st1.rt.cur.funcs
            let st2 := ({ st1 with heap := heap1 } : St).pushFrame ⟨[], funcs1⟩
            let st3 := bindParams st2 f.params args
            match execBody fuel st3 f.body with
            | (.ok _, st4) => (.ok VNothing, st4.popFrame)
            | (.error (.ret v), st4) => (.ok v, st4.popFrame)
            | (.error e, st4) => (.error e, st4.popFrame)
      match inner with
      | (.error (.nameErr _), st') => (.error (.rte (undefinedFuncMsg name)), st')
      | other => other

/-- The dispatch body of `Interpreter.execute` (inside its `try`). -/
def execStmtCore : Nat → St → Stmt → Except Exn Value × St
  | 0, st, _ => (.error .timeout, st)
  | fuel + 1, st, .assign target value =>
    match evalWrap (evalExprCore fuel st value) with
    | (.error e, st1) => (.error e, st1)
    | (.ok v, st1) =>
      match setTargetF fuel st1 target v with
      | (.error e, st2) => (.error e, st2)
      | (.ok _, st2) => (.ok VNothing, st2)
  | fuel + 1, st, .mutate target op value =>
    if op = "becomes" then
      match evalWrap (evalExprCore fuel st value) with
      | (.error e, st1) => (.error e, st1)
      | (.ok v, st1) =>
        match setTargetF fuel st1 target v with
        | (.error e, st2) => (.error e, st2)
        | (.ok _, st2) => (.ok VNothing, st2)
    else if op = "increase" then
      match evalWrap (evalExprCore fuel st value) with
      | (.error e, st1) => (.error e, st1)
      | (.ok inc, st1) =>
        match getTargetF fuel st1 target with
        | (.error e, st2) => (.error e, st2)
        | (.ok cur, st2) =>
          match pyAdd st2 cur inc with
          | (.error e, st3) => (.error e, st3)
          | (.ok v, st3) =>
            match setTargetF fuel st3 target v with
            | (.error e, st4) => (.error e, st4)
            | (.ok _, st4) => (.ok VNothing, st4)
    else if op = "decrease" then
      match evalWrap (evalExprCore fuel st value) with
      | (.error e, st1) => (.error e, st1)
      | (.ok dec, st1) =>
        match getTargetF fuel st1 target with
        | (.error e, st2) => (.error e, st2)
        | (.ok cur, st2) =>
          match pySub st2 cur dec with
          | (.error e, st3) => (.error e, st3)
          | (.ok v, st3) =>
            match setTargetF fuel st3 target v with
            | (.error e, st4) => (.error e, st4)
            | (.ok _, st4) => (.ok VNothing, st4)
    else (.ok VNothing, st)
  | fuel + 1, st, .say parts =>
    match evalSayParts fuel st parts with
    | (.error e, st1) => (.error e, st1)
    | (.ok strs, st1) => (.ok VNothing, emit st1 (String.join strs))
  | fuel + 1, st, .ifStmt cond thenB elseB =>
    match evalWrap (evalExprCore fuel st cond) with
    | (.error e, st1) => (.error e, st1)
    | (.ok c, st1) =>
      if pyTruthy st1 c then
        match execBody fuel st1 thenB with
        | (.error e, st2) => (.error e, st2)
        | (.ok _, st2) => (.ok VNothing, st2)
      else
        match elseB with
        | some b =>
          match execBody fuel st1 b with
          | (.error e, st2) => (.error e, st2)
          | (.ok _, st2) => (.ok VNothing, st2)
        | none => (.ok VNothing, st1)
  | _ + 1, st, .breakStmt => (.error .brk, st)
  | _ + 1, st, .continueStmt => (.error .cont, st)
  | _ + 1, st, .stopStmt => (.error .stop, st)
  | _ + 1, st, .funcDef name params body =>
    let closureEnv := st.rt.cur.vars
    let f : FuncV := ⟨params, body, closureEnv⟩
    (.ok VNothing,
     { st with rt := { st.rt with cur := { st.rt.cur with funcs := setA st.rt.cur.funcs name f } } })
  | fuel + 1, st, .returnStmt value =>
    match value with
    | some e =>
      match evalWrap (evalExprCore fuel st e) with
      | (.error ex, st1) => (.error ex, st1)
      | (.ok v, st1) => (.error (.ret v), st1)
    | none => (.error (.ret VNothing), st)
  | fuel + 1, st, .callStmt name args => callFunction fuel st name args

/-- `str(self.evaluate(part)) for part in node.parts`. -/
def evalSayParts : Nat → St → List Expr → Except Exn (List String) × St
  | 0, st, _ => (.error .timeout, st)
  | _ + 1, st, [] => (.ok [], st)
  | fuel + 1, st, e :: es =>
    match evalWrap (evalExprCore fuel st e) with
    | (.error ex, st1) => (.error ex, st1)
    | (.ok v, st1) =>
      let s := pyStrV fuel st1 v
      match evalSayParts fuel st1 es with
      | (.error ex, st2) => (.error ex, st2)
      | (.ok ss, st2) => (.ok (s :: ss), st2)

/-- Execute a statement list in order, as the block bodies and the
top-level driver loop do (each statement through `execute`'s handler). -/
def execBody : Nat → St → List Stmt → Except Exn Unit × St
  | 0, st, _ => (.error .timeout, st)
  | _ + 1, st, [] => (.ok (), st)
  | fuel + 1, st, s :: rest =>
    match stmtWrap (execStmtCore fuel st s) with
    | (.error e, st1) => (.error e, st1)
    | (.ok _, st1) => execBody fuel st1 rest

/-- `Interpreter.set_target`. -/
def setTargetF : Nat → St → Expr → Value → Except Exn Unit × St
  | 0, st, _, _ => (.error .timeout, st)
  | _ + 1, st, .ident name, v => (.ok (), st.setVar name v)
  | fuel + 1, st, .indexAccess o i, v =>
    match evalWrap (evalExprCore fuel st o) with
    | (.error e, st1) => (.error e, st1)
    | (.ok obj, st1) =>
      match evalWrap (evalExprCore fuel st1 i) with
      | (.error e, st2) => (.error e, st2)
      | (.ok idx, st2) =>
        match obj with
        | VList r =>
          match toPyInt idx with
          | some k =>
            let xs := st2.heapList r
            if 0 ≤ k ∧ k < xs.length then
              (.ok (), st2.writeHeap r (HObj.HList (xs.set k.toNat v)))
            else
              (.error (.rte ("Index " ++ pyStrV fuel st2 idx ++ " out of range")), st2)
          | none =>
            (.error (.rte ("Index " ++ pyStrV fuel st2 idx ++ " out of range")), st2)
        | VDict r =>
          let kvs := st2.heapDict r
          let kvs' :=
            match kvs.findIdx? (fun p => pyEqV fuel st2 p.1 idx) with
            | some j => kvs.set j (idx, v)
            | none => kvs ++ [(idx, v)]
          (.ok (), st2.writeHeap r (HObj.HDict kvs'))
        | _ => (.error (.rte ("Cannot index " ++ typeName obj)), st2)
  | _ + 1, st, t, _ =>
    (.error (.rte ("Cannot assign to target: " ++ astTypeName t)), st)

/-- `Interpreter.get_target`. -/
def getTargetF : Nat → St → Expr → Except Exn Value × St
  | 0, st, _ => (.error .timeout, st)
  | _ + 1, st, .ident name =>
    match st.rt.getVarOpt name with
    | some v => (.ok v, st)
    | none => (.error (undefinedVar name), st)
  | fuel + 1, st, .indexAccess o i =>
    match evalWrap (evalExprCore fuel st o) with
    | (.error e, st1) => (.error e, st1)
    | (.ok obj, st1) =>
      match evalWrap (evalExprCore fuel st1 i) with
      | (.error e, st2) => (.error e, st2)
      | (.ok idx, st2) =>
        match obj with
        | VList r =>
          match toPyInt idx with
          | some k =>
            let xs := st2.heapList r
            if 0 ≤ k ∧ k < xs.length then (.ok (xs.getD k.toNat VNothing), st2)
            else (.ok VNothing, st2)
          | none => (.ok VNothing, st2)
        | VDict r =>
          match (st2.heapDict r).find? (fun p => pyEqV fuel st2 p.1 idx) with
          | some p => (.ok p.2, st2)
          | none => (.ok VNothing, st2)
        | _ => (.ok VNothing, st2)
  | _ + 1, st, t =>
    (.error (.rte ("Cannot get from target: " ++ astTypeName t)), st)

/-- The `for item in list_expr` loop of `evaluate_filter`: iterate the
live heap list by index; per element, save `variables.get('item')`, bind
`item`, evaluate the predicate, restore `item` when the saved value was
not `None` and pop it otherwise, then keep the element if the predicate
was truthy. -/
def evalFilterLoop : Nat → St → Nat → Nat → List Value → Expr →
    Except Exn Value × St
  | 0, st, _, _, _, _ => (.error .timeout, st)
  | fuel + 1, st, r, i, acc, cond =>
    let xs := st.heapList r
    if i < xs.length then
      let e := xs.getD i VNothing
      let oldItem := st.curVarGetD "item"
      let stA := st.setVar "item" e
      match evalWrap (evalExprCore fuel stA cond) with
      | (.error ex, stB) => (.error ex, stB)
      | (.ok c, stB) =>
        let stC := if oldItem ≠ VNothing then stB.setVar "item" oldItem
                   else stB.popVar "item"
        let acc' := if pyTruthy stC c then acc ++ [e] else acc
        evalFilterLoop fuel stC r (i + 1) acc' cond
    else
      let (v, st') := st.allocList acc
      (.ok v, st')

/-- The loop of `evaluate_map`, with the same `item` save/restore. -/
def evalMapLoop : Nat → St → Nat → Nat → List Value → Expr →
    Except Exn Value × St
  | 0, st, _, _, _, _ => (.error .timeout, st)
  | fuel + 1, st, r, i, acc, transform =>
    let xs := st.heapList r
    if i < xs.length then
      let e := xs.getD i VNothing
      let oldItem := st.curVarGetD "item"
      let stA := st.setVar "item" e
      match evalWrap (evalExprCore fuel stA transform) with
      | (.error ex, stB) => (.error ex, stB)
      | (.ok t, stB) =>
        let stC := if oldItem ≠ VNothing then stB.setVar "item" oldItem
                   else stB.popVar "item"
        evalMapLoop fuel stC r (i + 1) (acc ++ [t]) transform
    else
      let (v, st') := st.allocList acc
      (.ok v, st')

end

/-- `Interpreter.evaluate`: the try-body plus the `RuntimeError` handler. -/
def evalExpr (fuel : Nat) (st : St) (e : Expr) : Except Exn Value × St :=
  evalWrap (evalExprCore fuel st e)

/-- `Interpreter.execute`: the try-body plus the handler chain. -/
def execStmt (fuel : Nat) (st : St) (s : Stmt) : Except Exn Value × St :=
  stmtWrap (execStmtCore fuel st s)

/-! ## Virtual-time scheduler (`gopa_lang/graphics_stub.py`)

Scheduler timestamps are Python floats; they are modelled as exact
fractions (`Frac`), which agrees with the float computation on every run
appearing below.  `datetime.fromtimestamp` is Python standard library
(outside the repository); it is modelled as the UTC civil calendar over
the epoch, which the all-wildcard cron schedules below never inspect. -/

/-- The fields of the `datetime` value used by `matches_cron`. -/
structure PyDateTime where
  minute : Int
  hour : Int
  day : Int
  month : Int
  weekday : Int
deriving DecidableEq, Repr

/-- Month and day of month from a day count since the epoch
(standard civil-from-days computation, floor division throughout). -/
def civilFromDays (z : Int) : Int × Int :=
  let z1 := z + 719468
  let era := z1.fdiv 146097
  let doe := z1 - era * 146097
  let yoe := (doe - doe.fdiv 1460 + doe.fdiv 36524 - doe.fdiv 146096).fdiv 365
  let doy := doe - (365 * yoe + yoe.fdiv 4 - yoe.fdiv 100)
  let mp := (5 * doy + 2).fdiv 153
  let d := doy - (153 * mp + 2).fdiv 5 + 1
  let m := mp + (if mp < 10 then 3 else -9)
  (m, d)

/-- `datetime.fromtimestamp` at UTC: minute, hour, civil day and month,
and `weekday()` with Monday = 0 (the epoch day was a Thursday). -/
def fromTimestamp (t : Frac) : PyDateTime :=
  let s := t.floorI
  let days := s.fdiv 86400
  let rem := s - days * 86400
  let md := civilFromDays days
  ⟨(rem.fdiv 60) % 60, rem.fdiv 3600, md.2, md.1, (days + 3) % 7⟩

/-- The five parsed cron fields (each `*` or a decimal literal). -/
structure CronFields where
  minute : String
  hour : String
  day : String
  month : String
  dow : String
deriving DecidableEq, Repr

/-- All-wildcard fields, as produced for `"every minute"`. -/
def allStar : CronFields := ⟨"*", "*", "*", "*", "*"⟩

/-- Match the regex `(\d{1,2}):(\d{2})` with `re.match` prefix semantics
(greedy two-digit hour, backtracking to one digit). -/
def matchTimeAt : List Char → Option (List Char × List Char)
  | d1 :: d2 :: ':' :: m1 :: m2 :: rest =>
    if d1.isDigit && d2.isDigit && m1.isDigit && m2.isDigit then
      some ([d1, d2], [m1, m2])
    else if d1.isDigit && d2 = ':' then none
    else none
  | d1 :: ':' :: m1 :: m2 :: _ =>
    if d1.isDigit && m1.isDigit && m2.isDigit then some ([d1], [m1, m2])
    else none
  | _ => none

/-- The weekday names of the friendly cron pattern, with their indices. -/
def weekdayNames : List (String × Nat) :=
  [("monday", 0), ("tuesday", 1), ("wednesday", 2), ("thursday", 3),
   ("friday", 4), ("saturday", 5), ("sunday", 6)]

/-- Try the `every <weekday> at HH:MM` pattern. -/
def matchWeekdayAt (s : List Char) : Option CronFields :=
  tryAll weekdayNames
where
  tryAll : List (String × Nat) → Option CronFields
    | [] => none
    | (w, i) :: rest =>
      let pre := ("every " ++ w ++ " at ").data
      if pre.isPrefixOf s then
        match matchTimeAt (s.drop pre.length) with
        | some (h, m) => some ⟨⟨m⟩, ⟨h⟩, "*", "*", toString i⟩
        | none => tryAll rest
      else tryAll rest

/-- `Scheduler.parse_cron`: the friendly patterns in source order (matched
with `re.match`, i.e. as prefixes of the lower-cased schedule), then the
classic five-field form; otherwise `ValueError`. -/
def parseCron (schedule : String) : Except String CronFields :=
  let s := pyLower schedule.data
  if "every minute".data.isPrefixOf s then .ok allStar
  else if "every hour".data.isPrefixOf s then .ok ⟨"0", "*", "*", "*", "*"⟩
  else if "every day at ".data.isPrefixOf s then
    match matchTimeAt (s.drop "every day at ".length) with
    | some (h, m) => .ok ⟨⟨m⟩, ⟨h⟩, "*", "*", "*"⟩
    | none =>
      match splitWs schedule.data with
      | [a, b, c, d, e] => .ok ⟨⟨a⟩, ⟨b⟩, ⟨c⟩, ⟨d⟩, ⟨e⟩⟩
      | _ => .error ("Invalid cron schedule: " ++ schedule)
  else
    match matchWeekdayAt s with
    | some f => .ok f
    | none =>
      match splitWs schedule.data with
      | [a, b, c, d, e] => .ok ⟨⟨a⟩, ⟨b⟩, ⟨c⟩, ⟨d⟩, ⟨e⟩⟩
      | _ => .error ("Invalid cron schedule: " ++ schedule)

/-- One per-field cron match: `*` matches anything, otherwise the field
must parse as exactly the value (`int(field) == value`, `ValueError`
meaning no match). -/
def matchField (v : Int) (field : String) : Bool :=
  if field = "*" then true
  else
    match pyParseInt field.data with
    | some k => k = v
    | none => false

/-- `Scheduler.matches_cron`: the conjunction of the five field matches. -/
def matchesCron (dt : PyDateTime) (f : CronFields) : Bool :=
  matchField dt.minute f.minute && matchField dt.hour f.hour &&
  matchField dt.day f.day && matchField dt.month f.month &&
  matchField dt.weekday f.dow

/-- A pending `after` task. -/
structure AfterTask where
  time : Frac
  body : List Stmt

/-- A pending `every` task (also the payload of a named job). -/
structure EveryTask where
  interval : Frac
  lastRun : Frac
  body : List Stmt

/-- A registered cron task. -/
structure CronTask where
  schedule : String
  fields : CronFields
  body : List Stmt

/-- The scheduler state (virtual-time mode; the wall-clock thread is out
of scope of the claims below). -/
structure Sched where
  virtualTime : Bool
  currentTime : Frac
  jobs : List (String × EveryTask)
  afterTasks : List AfterTask
  everyTasks : List EveryTask
  cronTasks : List CronTask

/-- Run a task body, swallowing every exception
(`except Exception: pass` — control signals included). -/
def runBodySwallow (fuel : Nat) (st : St) (body : List Stmt) : St :=
  (execBody fuel st body).2

/-- The `after` pass of `Scheduler.step`: fire due tasks in registration
order and drop them; keep the rest. -/
def runAfterTasks (fuel : Nat) (ct : Frac) :
    List AfterTask → St → List AfterTask × St
  | [], st => ([], st)
  | t :: ts, st =>
    if t.time.le ct then
      let st1 := runBodySwallow fuel st t.body
      let (keep, st2) := runAfterTasks fuel ct ts st1
      (keep, st2)
    else
      let (keep, st2) := runAfterTasks fuel ct ts st
      (t :: keep, st2)

/-- The `every` pass: fire due tasks and re-arm them at the current time. -/
def runEveryTasks (fuel : Nat) (ct : Frac) :
    List EveryTask → St → List EveryTask × St
  | [], st => ([], st)
  | t :: ts, st =>
    if (t.lastRun.add t.interval).le ct then
      let st1 := runBodySwallow fuel st t.body
      let (rest, st2) := runEveryTasks fuel ct ts st1
      ({ t with lastRun := ct } :: rest, st2)
    else
      let (rest, st2) := runEveryTasks fuel ct ts st
      (t :: rest, st2)

/-- The named-jobs pass (same firing rule as `every`). -/
def runJobTasks (fuel : Nat) (ct : Frac) :
    List (String × EveryTask) → St → List (String × EveryTask) × St
  | [], st => ([], st)
  | (n, t) :: ts, st =>
    if (t.lastRun.add t.interval).le ct then
      let st1 := runBodySwallow fuel st t.body
      let (rest, st2) := runJobTasks fuel ct ts st1
      ((n, { t with lastRun := ct }) :: rest, st2)
    else
      let (rest, st2) := runJobTasks fuel ct ts st
      ((n, t) :: rest, st2)

/-- The cron pass: run every task whose fields match the current
datetime; cron tasks persist and are never re-armed. -/
def runCronTasks (fuel : Nat) (now : PyDateTime) :
    List CronTask → St → St
  | [], st => st
  | t :: ts, st =>
    if matchesCron now t.fields then
      runCronTasks fuel now ts (runBodySwallow fuel st t.body)
    else runCronTasks fuel now ts st

/-- `Scheduler.step(dt)`: advance virtual time, then dispatch `after`,
`every`, named jobs, and cron in that order. -/
def Sched.step (fuel : Nat) (sc : Sched) (st : St) (dt : Frac) : Sched × St :=
  if !sc.virtualTime then (sc, st)
  else
    let ct := sc.currentTime.add dt
    let (after1, st1) := runAfterTasks fuel ct sc.afterTasks st
    let (every1, st2) := runEveryTasks fuel ct sc.everyTasks st1
    let (jobs1, st3) := runJobTasks fuel ct sc.jobs st2
    let now := fromTimestamp ct
    let st4 := runCronTasks fuel now sc.cronTasks st3
    ({ sc with currentTime := ct, afterTasks := after1, everyTasks := every1,
               jobs := jobs1 }, st4)

/-- `n` consecutive `step(dt)` calls. -/
def Sched.stepN (fuel : Nat) (sc : Sched) (st : St) (dt : Frac) :
    Nat → Sched × St
  | 0 => (sc, st)
  | n + 1 =>
    let (sc1, st1) := sc.step fuel st dt
    Sched.stepN fuel sc1 st1 dt n

/-- `Scheduler.cron(schedule, body, interpreter)`: parse and register. -/
def Sched.cron (sc : Sched) (schedule : String) (body : List Stmt) :
    Except String Sched :=
  match parseCron schedule with
  | .error e => .error e
  | .ok fields =>
    .ok { sc with cronTasks := sc.cronTasks ++ [⟨schedule, fields, body⟩] }

/-! ## Concrete states and programs used by the theorems below -/

/-- A fresh interpreter state: one empty global frame, empty heap, no
output, debug off (the default of `gopa run` and of the test runner). -/
def emptySt : St := ⟨⟨⟨[], []⟩, []⟩, [], [], false⟩

/-- `x is 1` / `define f … return x end` / `x is 2` / `r is f` —
the function body reads the free variable `x`. -/
def c1prog : List Stmt :=
  [.assign (.ident "x") (.numLit 1),
   .funcDef "f" [] [.returnStmt (some (.ident "x"))],
   .assign (.ident "x") (.numLit 2),
   .assign (.ident "r") (.functionCall "f" [])]

/-- The state after the first three statements of `c1prog`
(`x` reassigned to `2`, `f` defined with `closure_env = ⟮x ↦ 1⟯`). -/
def c1st3 : St := (execBody 30 emptySt (c1prog.take 3)).2

/-- The function value recorded for `f` in `c1st3`. -/
def c1f : FuncV := (c1st3.rt.getFuncOpt "f").getD ⟨[], [], []⟩

/-- Written from the claim being checked (spec §4.3 function call): run the
body in a fresh child scope whose PARENT is the function's captured
environment, not the caller's scope; parameters positional, `Return`
caught, fallthrough `Nothing`, runtime restored afterwards. -/
def specCallCaptured (fuel : Nat) (st : St) (f : FuncV) (args : List Value) :
    Except Exn Value × St :=
  let st2 : St := { st with rt := ⟨⟨[], st.rt.cur.funcs⟩, [⟨f.closureEnv, []⟩]⟩ }
  let st3 := bindParams st2 f.params args
  match execBody fuel st3 f.body with
  | (.ok _, st4) => (.ok VNothing, { st4 with rt := st.rt })
  | (.error (.ret v), st4) => (.ok v, { st4 with rt := st.rt })
  | (.error e, st4) => (.error e, { st4 with rt := st.rt })

/-- `false and (1 divided by 0)`: the left operand already determines the
result of `and`. -/
def c2expr : Expr :=
  .binaryOp (.boolLit false) "and" (.binaryOp (.numLit 1) "divided_by" (.numLit 0))

/-- The source text of end-to-end scenario 2 of the specification. -/
def c3Source : List Char := "x is 2 plus 3 times 4\nsay x".data

/-- A state with a one-element list bound to `L` (for the index claims). -/
def stL1 : St := ⟨⟨⟨[("L", VList 0)], []⟩, []⟩, [HObj.HList [VInt 10]], [], false⟩

/-- A state binding `item` to `Nothing` and `L` to the list `[1]`. -/
def stItemNothing : St :=
  ⟨⟨⟨[("item", VNothing), ("L", VList 0)], []⟩, []⟩, [HObj.HList [VInt 1]], [], false⟩

/-- A state binding `item` to `5` and `L` to the list `[1, 2]`. -/
def stItemFive : St :=
  ⟨⟨⟨[("item", VInt 5), ("L", VList 0)], []⟩, []⟩,
   [HObj.HList [VInt 1, VInt 2]], [], false⟩

/-- `Scheduler(virtual_time=True)`. -/
def schedInit : Sched := ⟨true, ⟨0, 1⟩, [], [], [], []⟩

/-- The scheduler after `cron "every minute" do say "tick" end`. -/
def c4sc : Sched :=
  match schedInit.cron "every minute" [.say [.strLit "tick"]] with
  | .ok sc => sc
  | .error _ => schedInit

/-- Advance a timestamp by `n` steps of `dt`. -/
def fracAddN (t dt : Frac) : Nat → Frac
  | 0 => t
  | n + 1 => fracAddN (t.add dt) dt n

/-- Run a task body `n` times through the scheduler's swallowing
dispatcher. -/
def iterRun (fuel : Nat) (body : List Stmt) : Nat → St → St
  | 0, st => st
  | n + 1, st => iterRun fuel body n (runBodySwallow fuel st body)

/-- Well-formedness of a variables dict: no duplicate keys (Python dicts
cannot hold duplicates; the association-list model can state it). -/
def keysNodup {α : Type} (l : List (String × α)) : Prop :=
  (l.map Prod.fst).Nodup

/-- The filter expression of the `item`-restoration witness. -/
def c8F : Expr := .filterExpr (.ident "L") (.boolLit true)

/-- The map expressions of the `item`-restoration witness. -/
def c8M : Expr := .mapExpr (.ident "L") (.boolLit true)

/-- `filter L where item` (the implicit binding as the predicate). -/
def c8Fi : Expr := .filterExpr (.ident "L") (.ident "item")

/-- `map L using item` (the implicit binding as the transform). -/
def c8Mi : Expr := .mapExpr (.ident "L") (.ident "item")

/-- Result states of the runs used by the `item`-restoration witness. -/
def c8fN : St := (evalExpr 20 stItemNothing c8F).2

/-- State after `map L using true` from the `item = Nothing` state. -/
def c8mN : St := (evalExpr 20 stItemNothing c8M).2

/-- State after `filter L where item` from the `item = 5` state. -/
def c8fP : St := (evalExpr 20 stItemFive c8Fi).2

/-- State after `map L using item` from the `item = 5` state. -/
def c8mP : St := (evalExpr 20 stItemFive c8Mi).2

/-! # Theorems -/

/-- C9: for every `Permissions` value, `check_timers` returns normally
exactly when the `timers` or the `graphics` capability is granted, and
`check_cron` exactly when `cron` or `timers` is granted; otherwise each
fails with the permission-denied error. -/
theorem C9_check_timers_cron (p : Permissions) :
    p.check_timers =
      (if p.timers || p.graphics then .ok () else .error "Timer access not allowed") ∧
    p.check_cron =
      (if p.cron || p.timers then .ok () else .error "Cron access not allowed") := by
  obtain ⟨n, f, g, so, pk, py, se, t, c, sta⟩ := p
  constructor
  · cases t <;> cases g <;> rfl
  · cases c <;> cases t <;> rfl

/-- C10: a `Permissions` value built from a non-empty permission string
grants each capability exactly when its name occurs in the normalised
comma-separated list (`python` or `python_ffi` both granting the Python
bridge); in particular the packages-on default does not apply, so a
non-empty string that omits `packages` leaves packages denied. -/
theorem C10_nonempty_perm_string (s : String) (h : s.data.isEmpty = false) :
    Permissions.init s =
      ⟨(permParts s).contains "network".data,
       (permParts s).contains "files".data,
       (permParts s).contains "graphics".data,
       (permParts s).contains "sound".data,
       (permParts s).contains "packages".data,
       (permParts s).contains "python".data || (permParts s).contains "python_ffi".data,
       (permParts s).contains "server".data,
       (permParts s).contains "timers".data,
       (permParts s).contains "cron".data,
       (permParts s).contains "state".data⟩ := by
  simp only [Permissions.init, h, Bool.false_eq_true, if_false]

/-- Witness for C10 at the concrete string `"network,python"`: non-empty,
so packages is denied while network and the Python bridge are granted. -/
theorem C10_nonempty_perm_string_witness :
    ("network,python".data.isEmpty = false) ∧
    Permissions.init "network,python" =
      ⟨(permParts "network,python").contains "network".data,
       (permParts "network,python").contains "files".data,
       (permParts "network,python").contains "graphics".data,
       (permParts "network,python").contains "sound".data,
       (permParts "network,python").contains "packages".data,
       (permParts "network,python").contains "python".data ||
         (permParts "network,python").contains "python_ffi".data,
       (permParts "network,python").contains "server".data,
       (permParts "network,python").contains "timers".data,
       (permParts "network,python").contains "cron".data,
       (permParts "network,python").contains "state".data⟩ :=
  ⟨by decide, C10_nonempty_perm_string "network,python" (by decide)⟩

/-- C3 counterexample: in `x is 2 plus 3 times 4` the word `times` is NOT
lexed as the multiplication operator `TIMES_OP` — because it is preceded
by the digit `3`, the look-back rule emits the loop keyword `TIMES`. -/
theorem C3_counterexample :
    ((tokenize c3Source).map Token.type).get? 5 = some TokenType.TIMES ∧
    TokenType.TIMES ≠ TokenType.TIMES_OP := by
  constructor
  · rfl
  · decide

/-- C3 amended: lexing `x is 2 plus 3 times 4` / `say x` produces the loop
keyword `TIMES` between `3` and `4` (the 20-character look-back before
`times` ends in a digit), so the program is not the arithmetic statement
the scenario expects and never prints `14`. -/
theorem C3_times_lexes_as_loop_keyword :
    (tokenize c3Source).map (fun t => (t.type, t.value)) =
      [(TokenType.IDENTIFIER, Payload.pident ['x']), (TokenType.IS, Payload.pnone),
       (TokenType.NUMBER, Payload.pint 2), (TokenType.PLUS, Payload.pnone),
       (TokenType.NUMBER, Payload.pint 3), (TokenType.TIMES, Payload.pnone),
       (TokenType.NUMBER, Payload.pint 4), (TokenType.NEWLINE, Payload.pnone),
       (TokenType.SAY, Payload.pnone), (TokenType.IDENTIFIER, Payload.pident ['x']),
       (TokenType.EOF, Payload.pnone)] := by
  rfl

/-- C5: at a top-level statement with debug off, a `RuntimeError` (here
division by zero) is printed and execution continues with `Nothing`, and
the four control signals pass through the handler untouched — but an
undefined-variable read raises `NameError`, which `execute`'s
`except RuntimeError` does NOT catch: the error escapes the statement
boundary with nothing printed (the driver then aborts the program). -/
theorem C5_undefined_variable_escapes_handler :
    execStmt 10 emptySt (.say [.ident "x"]) =
      (.error (undefinedVar "x"), emptySt) ∧
    execStmt 10 emptySt
        (.assign (.ident "y") (.binaryOp (.numLit 1) "divided_by" (.numLit 0))) =
      (.ok VNothing,
       ⟨⟨⟨[("y", VNothing)], []⟩, []⟩, [], ["Division by zero"], false⟩) ∧
    execStmt 10 emptySt .breakStmt = (.error .brk, emptySt) ∧
    execStmt 10 emptySt .continueStmt = (.error .cont, emptySt) ∧
    execStmt 10 emptySt .stopStmt = (.error .stop, emptySt) ∧
    execStmt 10 emptySt (.returnStmt none) = (.error (.ret VNothing), emptySt) :=
  ⟨rfl, rfl, rfl, rfl, rfl, rfl⟩

/-- C6 counterexample: reading index 0 of the string `"ab"` does not
yield the single-character string `"a"` — the evaluator has no string
case in `IndexAccess`, raises `Cannot index <class str>`, and the printed
error leaves the expression with value `Nothing`. -/
theorem C6_counterexample :
    evalExpr 10 emptySt (.indexAccess (.strLit "ab") (.numLit 0)) =
      (.ok VNothing, emit emptySt ("Cannot index <class " ++ quo "str" ++ ">")) ∧
    VNothing ≠ VStr "a" := by
  exact ⟨rfl, by decide⟩

/-- C6 amended: for every string and every integer index, in range or
not, index access on a String raises the `Cannot index` runtime error;
with debug off the message is printed and the expression yields
`Nothing`. -/
theorem C6_string_index_always_errors (fuel : Nat) (s : String) (i : Int)
    (st : St) (h : st.debug = false) :
    evalExpr (fuel + 2) st (.indexAccess (.strLit s) (.numLit i)) =
      (.ok VNothing, emit st ("Cannot index <class " ++ quo "str" ++ ">")) := by
  simp only [evalExpr, evalExprCore, evalWrap, typeName, h, Bool.false_eq_true, if_false]
  rfl

/-- Witness for C6 at `"ab"[0]` in the fresh state. -/
theorem C6_string_index_always_errors_witness :
    (emptySt.debug = false) ∧
    evalExpr (8 + 2) emptySt (.indexAccess (.strLit "ab") (.numLit 0)) =
      (.ok VNothing, emit emptySt ("Cannot index <class " ++ quo "str" ++ ">")) :=
  ⟨rfl, C6_string_index_always_errors 8 "ab" 0 emptySt rfl⟩

/-- C2 counterexample: in `false and (1 divided by 0)` the left operand
`false` already determines the result, yet the right operand IS evaluated:
its division-by-zero error is printed (so the output is non-empty, where
short-circuit evaluation would have produced none). -/
theorem C2_counterexample :
    evalExpr 10 emptySt c2expr = (.ok (VBool false), emit emptySt "Division by zero") ∧
    (emit emptySt "Division by zero").output ≠ emptySt.output := by
  exact ⟨rfl, by decide⟩

/-- C2 amended: `and`/`or` always evaluate BOTH operands (left first);
the result is then selected by the left operand's truthiness — the left
value when it determines the result, otherwise the right value — and the
final state is the state after evaluating the right operand. -/
theorem C2_and_or_evaluate_both_operands (fuel : Nat) (st s1 s2 : St)
    (a b : Expr) (va vb : Value)
    (h1 : evalExpr fuel st a = (.ok va, s1))
    (h2 : evalExpr fuel s1 b = (.ok vb, s2)) :
    evalExpr (fuel + 1) st (.binaryOp a "and" b) =
      (.ok (if pyTruthy s2 va then vb else va), s2) ∧
    evalExpr (fuel + 1) st (.binaryOp a "or" b) =
      (.ok (if pyTruthy s2 va then va else vb), s2) := by
  unfold evalExpr at h1 h2
  constructor <;>
    · show evalWrap (evalExprCore (fuel + 1) st _) = _
      simp only [evalExprCore, h1, h2]
      rfl

/-- Witness for C2 at `false and 3` / `false or 3` in the fresh state. -/
theorem C2_and_or_evaluate_both_operands_witness :
    evalExpr 5 emptySt (.boolLit false) = (.ok (VBool false), emptySt) ∧
    evalExpr 5 emptySt (.numLit 3) = (.ok (VInt 3), emptySt) ∧
    (evalExpr (5 + 1) emptySt (.binaryOp (.boolLit false) "and" (.numLit 3)) =
       (.ok (if pyTruthy emptySt (VBool false) then VInt 3 else VBool false), emptySt) ∧
     evalExpr (5 + 1) emptySt (.binaryOp (.boolLit false) "or" (.numLit 3)) =
       (.ok (if pyTruthy emptySt (VBool false) then VBool false else VInt 3), emptySt)) :=
  ⟨rfl, rfl,
   C2_and_or_evaluate_both_operands 5 emptySt emptySt emptySt
     (.boolLit false) (.numLit 3) (VBool false) (VInt 3) rfl rfl⟩

/-- C4 counterexample: a cron task registered with `"every minute"` in
virtual-time mode fires on EVERY `step`, not once per minute: two
consecutive `step(0.1)` calls inside virtual minute 0 fire the task
twice. -/
theorem C4_counterexample :
    parseCron "every minute" = .ok allStar ∧
    (Sched.stepN 10 c4sc emptySt ⟨1, 10⟩ 2).2.output = ["tick", "tick"] ∧
    (fromTimestamp (Frac.add ⟨0, 1⟩ ⟨1, 10⟩)).minute = 0 ∧
    (fromTimestamp (fracAddN ⟨0, 1⟩ ⟨1, 10⟩ 2)).minute = 0 := by
  refine ⟨rfl, rfl, ?_, ?_⟩ <;> decide

/-- C4 amended: in virtual-time mode a cron task whose parsed fields are
all wildcards (as `"every minute"` parses) fires exactly once on EVERY
`step(dt)` call, whatever `dt` is: `n` steps run the body `n` times (so
ten `step(0.1)` calls inside one virtual minute fire it ten times, not at
most once); with a `say` body, `n` steps append exactly `n` output
lines. -/
theorem C4_allstar_cron_fires_once_per_step :
    (∀ (fuel n : Nat) (t0 dt : Frac) (st : St) (sch : String) (body : List Stmt),
       Sched.stepN fuel ⟨true, t0, [], [], [], [⟨sch, allStar, body⟩]⟩ st dt n =
         (⟨true, fracAddN t0 dt n, [], [], [], [⟨sch, allStar, body⟩]⟩,
          iterRun fuel body n st)) ∧
    (∀ (k n : Nat) (t0 dt : Frac) (st : St) (sch msg : String),
       (Sched.stepN (k + 4)
          ⟨true, t0, [], [], [], [⟨sch, allStar, [.say [.strLit msg]]⟩]⟩
          st dt n).2.output = st.output ++ List.replicate n msg) := by
  have p1 : ∀ (fuel n : Nat) (t0 dt : Frac) (st : St) (sch : String) (body : List Stmt),
      Sched.stepN fuel ⟨true, t0, [], [], [], [⟨sch, allStar, body⟩]⟩ st dt n =
        (⟨true, fracAddN t0 dt n, [], [], [], [⟨sch, allStar, body⟩]⟩,
         iterRun fuel body n st) := by
    intro fuel n
    induction n with
    | zero => intro t0 dt st sch body; rfl
    | succ n ih =>
      intro t0 dt st sch body
      have hstep : Sched.step fuel ⟨true, t0, [], [], [], [⟨sch, allStar, body⟩]⟩ st dt =
          (⟨true, t0.add dt, [], [], [], [⟨sch, allStar, body⟩]⟩,
           runBodySwallow fuel st body) := rfl
      show Sched.stepN fuel _ _ dt (n + 1) = _
      simp only [Sched.stepN, hstep]
      exact ih (t0.add dt) dt (runBodySwallow fuel st body) sch body
  refine ⟨p1, ?_⟩
  intro k n t0 dt st sch msg
  rw [p1]
  have hrun : ∀ s : St, runBodySwallow (k + 4) s [.say [.strLit msg]] = emit s msg :=
    fun _ => rfl
  clear p1
  induction n generalizing t0 st with
  | zero => simp [iterRun]
  | succ n ih =>
    show (iterRun (k + 4) _ n (runBodySwallow (k + 4) st _)).output = _
    rw [hrun st]
    rw [ih (t0.add dt) (emit st msg)]
    simp [emit, List.replicate_succ, List.append_assoc]

/-- C7: with a list bound to `L` and an integer index `i` outside
`[0, len)`: assigning through `L[i]` raises the index-out-of-range
`RuntimeError` inside the statement and leaves the state (in particular
the heap holding `L`) unchanged; at the statement boundary with debug off
the message is printed and nothing else changes; whereas READING `L[i]`
yields `Nothing` with no error and no output. -/
theorem C7_oob_write_errors_read_nothing (fuel : Nat) (st : St) (r : Nat)
    (xs : List Value) (i m : Int)
    (hL : st.rt.getVarOpt "L" = some (VList r))
    (hr : st.heap.get? r = some (HObj.HList xs))
    (hi : ¬(0 ≤ i ∧ i < (xs.length : Int)))
    (hd : st.debug = false) :
    execStmtCore (fuel + 3) st
        (.assign (.indexAccess (.ident "L") (.numLit i)) (.numLit m)) =
      (.error (.rte ("Index " ++ toString i ++ " out of range")), st) ∧
    execStmt (fuel + 3) st
        (.assign (.indexAccess (.ident "L") (.numLit i)) (.numLit m)) =
      (.ok VNothing, emit st ("Index " ++ toString i ++ " out of range")) ∧
    evalExpr (fuel + 3) st (.indexAccess (.ident "L") (.numLit i)) =
      (.ok VNothing, st) := by
  have hcore : execStmtCore (fuel + 3) st
      (.assign (.indexAccess (.ident "L") (.numLit i)) (.numLit m)) =
      (.error (.rte ("Index " ++ toString i ++ " out of range")), st) := by
    simp only [execStmtCore, setTargetF, evalExprCore, evalWrap, hL,
      St.heapList, hr, hi, if_false, pyStrV, pyReprV]
    simp only [toPyInt, if_neg hi]
  refine ⟨hcore, ?_, ?_⟩
  · unfold execStmt
    rw [hcore]
    simp only [stmtWrap, hd, Bool.false_eq_true, if_false]
  · simp only [evalExpr, evalExprCore, evalWrap, hL, St.heapList, hr, toPyInt,
      hi, if_false]

/-- Looking up a key just written finds the written value. -/
theorem lookupA_setA_self {α : Type} (l : List (String × α)) (k : String) (v : α) :
    lookupA (setA l k v) k = some v := by
  induction l with
  | nil => simp [setA, lookupA]
  | cons p rest ih =>
    obtain ⟨k', v'⟩ := p
    by_cases h : k' = k
    · simp [setA, lookupA, h]
    · simp [setA, lookupA, h, ih]

/-- Writing a key absent from the dict and popping it restores the dict. -/
theorem popA_setA_of_none {α : Type} (l : List (String × α)) (k : String) (v : α)
    (h : lookupA l k = none) : popA (setA l k v) k = l := by
  induction l with
  | nil => simp [setA, popA]
  | cons p rest ih =>
    obtain ⟨k', v'⟩ := p
    by_cases hk : k' = k
    · simp [lookupA, hk] at h
    · simp only [setA, popA, if_neg hk]
      simp only [lookupA, if_neg hk] at h
      rw [ih h]

/-- A key absent from the key list is not found. -/
theorem lookupA_eq_none_of_not_mem {α : Type} (l : List (String × α)) (k : String)
    (h : k ∉ l.map Prod.fst) : lookupA l k = none := by
  induction l with
  | nil => rfl
  | cons p rest ih =>
    obtain ⟨k', v'⟩ := p
    simp only [List.map_cons, List.mem_cons] at h
    push_neg at h
    simp only [lookupA, if_neg (fun he => h.1 (Eq.symm he))]
    exact ih h.2

/-- Popping a key from a duplicate-free dict removes it entirely. -/
theorem lookupA_popA_of_nodup {α : Type} (l : List (String × α)) (k : String)
    (h : keysNodup l) : lookupA (popA l k) k = none := by
  induction l with
  | nil => rfl
  | cons p rest ih =>
    obtain ⟨k', v'⟩ := p
    obtain ⟨hk', hrest⟩ := List.nodup_cons.mp h
    by_cases hk : k' = k
    · subst hk
      simp only [popA, if_pos rfl]
      exact lookupA_eq_none_of_not_mem rest k' hk'
    · simp only [popA, if_neg hk, lookupA, if_neg hk]
      exact ih hrest

/-- The keys occurring after a write are the old keys plus the written key. -/
theorem mem_keys_setA {α : Type} (l : List (String × α)) (k x : String) (v : α)
    (h : x ∈ (setA l k v).map Prod.fst) : x ∈ l.map Prod.fst ∨ x = k := by
  induction l with
  | nil => simp [setA] at h; exact Or.inr h
  | cons p rest ih =>
    obtain ⟨k', v'⟩ := p
    by_cases hk : k' = k
    · simp only [setA, if_pos hk, List.map_cons, List.mem_cons] at h
      rcases h with h | h
      · exact Or.inl (by simp [h])
      · exact Or.inl (by simp [h])
    · simp only [setA, if_neg hk, List.map_cons, List.mem_cons] at h
      rcases h with h | h
      · exact Or.inl (by simp [h])
      · rcases ih h with h2 | h2
        · exact Or.inl (by simp [h2, List.mem_cons])
        · exact Or.inr h2

/-- A write preserves duplicate-freeness of the keys. -/
theorem keysNodup_setA {α : Type} (l : List (String × α)) (k : String) (v : α)
    (h : keysNodup l) : keysNodup (setA l k v) := by
  induction l with
  | nil => simp [setA, keysNodup]
  | cons p rest ih =>
    obtain ⟨k', v'⟩ := p
    obtain ⟨hk', hrest⟩ := List.nodup_cons.mp h
    by_cases hk : k' = k
    · simpa [keysNodup, setA, if_pos hk] using List.nodup_cons.mpr ⟨hk', hrest⟩
    · simp only [setA, if_neg hk, keysNodup, List.map_cons]
      refine List.nodup_cons.mpr ⟨?_, ih hrest⟩
      intro hmem
      rcases mem_keys_setA rest k k' v hmem with h2 | h2
      · exact hk' h2
      · exact hk h2

/-- A wrapped evaluation can only deliver an uncaught `RuntimeError` when
the resulting state has debug on (otherwise the handler converts it). -/
theorem evalWrap_rte_debug (r : Except Exn Value × St) (m : String) (stB : St)
    (h : evalWrap r = (.error (.rte m), stB)) : stB.debug = true := by
  obtain ⟨e, s⟩ := r
  cases e with
  | ok v => simp [evalWrap] at h
  | error ex =>
    cases ex with
    | rte mm =>
      simp only [evalWrap] at h
      by_cases hd : s.debug = true
      · simp only [hd, if_true] at h
        injection h with h1 h2
        exact h2 ▸ hd
      · simp only [eq_false_of_ne_true hd, Bool.false_eq_true, if_false] at h
        exact absurd h (by simp)
    | nameErr mm => simp [evalWrap] at h
    | typeErr mm => simp [evalWrap] at h
    | brk => simp [evalWrap] at h
    | cont => simp [evalWrap] at h
    | stop => simp [evalWrap] at h
    | ret v => simp [evalWrap] at h
    | timeout => simp [evalWrap] at h

/-- The filter loop can only propagate an uncaught `RuntimeError` (from
its predicate) when the final state has debug on. -/
theorem filterLoop_rte_debug (cond : Expr) (r : Nat) (m : String) :
    ∀ (fuel : Nat) (st : St) (i : Nat) (acc : List Value) (stB : St),
      evalFilterLoop fuel st r i acc cond = (.error (.rte m), stB) →
      stB.debug = true := by
  intro fuel
  induction fuel with
  | zero => intro st i acc stB h; simp [evalFilterLoop] at h
  | succ fuel ih =>
    intro st i acc stB h
    simp only [evalFilterLoop] at h
    by_cases hlen : i < (st.heapList r).length
    · rw [if_pos hlen] at h
      rcases hc : evalWrap (evalExprCore fuel
          (st.setVar "item" ((st.heapList r).getD i VNothing)) cond) with ⟨cr, stC⟩
      rw [hc] at h
      cases cr with
      | error ex =>
        injection h with h1 h2
        injection h1 with h1
        subst h1; subst h2
        exact evalWrap_rte_debug _ m stC hc
      | ok c => exact ih _ _ _ _ h
    · rw [if_neg hlen] at h
      exact absurd h (by simp)

/-- The map loop analogue of the previous lemma. -/
theorem mapLoop_rte_debug (tr : Expr) (r : Nat) (m : String) :
    ∀ (fuel : Nat) (st : St) (i : Nat) (acc : List Value) (stB : St),
      evalMapLoop fuel st r i acc tr = (.error (.rte m), stB) →
      stB.debug = true := by
  intro fuel
  induction fuel with
  | zero => intro st i acc stB h; simp [evalMapLoop] at h
  | succ fuel ih =>
    intro st i acc stB h
    simp only [evalMapLoop] at h
    by_cases hlen : i < (st.heapList r).length
    · rw [if_pos hlen] at h
      rcases hc : evalWrap (evalExprCore fuel
          (st.setVar "item" ((st.heapList r).getD i VNothing)) tr) with ⟨cr, stC⟩
      rw [hc] at h
      cases cr with
      | error ex =>
        injection h with h1 h2
        injection h1 with h1
        subst h1; subst h2
        exact evalWrap_rte_debug _ m stC hc
      | ok c => exact ih _ _ _ _ h
    · rw [if_neg hlen] at h
      exact absurd h (by simp)

/-- Witness for C7: `L = [10]`, writing `L[5]` errors and leaves the heap
unchanged, reading `L[5]` silently yields `Nothing`. -/
theorem C7_oob_write_errors_read_nothing_witness :
    (stL1.rt.getVarOpt "L" = some (VList 0)) ∧
    (stL1.heap.get? 0 = some (HObj.HList [VInt 10])) ∧
    ¬((0 : Int) ≤ 5 ∧ (5 : Int) < (([VInt 10] : List Value).length : Int)) ∧
    (execStmtCore (7 + 3) stL1
        (.assign (.indexAccess (.ident "L") (.numLit 5)) (.numLit 7)) =
      (.error (.rte ("Index " ++ toString (5 : Int) ++ " out of range")), stL1) ∧
     execStmt (7 + 3) stL1
        (.assign (.indexAccess (.ident "L") (.numLit 5)) (.numLit 7)) =
      (.ok VNothing, emit stL1 ("Index " ++ toString (5 : Int) ++ " out of range")) ∧
     evalExpr (7 + 3) stL1 (.indexAccess (.ident "L") (.numLit 5)) =
      (.ok VNothing, stL1)) :=
  ⟨rfl, rfl, by decide,
   C7_oob_write_errors_read_nothing 7 stL1 0 [VInt 10] 5 7 rfl rfl (by decide) rfl⟩

/-- Throughout a successful filter loop, a prior `item` binding whose
value is not `Nothing` stays bound to that value (each iteration's restore
step rewrites it). -/
theorem filterLoop_keeps_item (cond : Expr) (r : Nat) (v : Value)
    (hv : v ≠ VNothing) :
    ∀ (fuel : Nat) (st : St) (i : Nat) (acc : List Value) (res : Value) (st' : St),
      lookupA st.rt.cur.vars "item" = some v →
      evalFilterLoop fuel st r i acc cond = (.ok res, st') →
      lookupA st'.rt.cur.vars "item" = some v := by
  intro fuel
  induction fuel with
  | zero => intro st i acc res st' _ heq; exact absurd heq (by simp [evalFilterLoop])
  | succ fuel ih =>
    intro st i acc res st' hit heq
    simp only [evalFilterLoop] at heq
    by_cases hlen : i < (st.heapList r).length
    · rw [if_pos hlen] at heq
      rcases hc : evalWrap (evalExprCore fuel
          (st.setVar "item" ((st.heapList r).getD i VNothing)) cond) with ⟨cr, stB⟩
      rw [hc] at heq
      cases cr with
      | error ex => exact absurd heq (by simp)
      | ok c =>
        dsimp only at heq
        have hold : st.curVarGetD "item" = v := by
          simp [St.curVarGetD, hit]
        rw [hold, if_pos hv] at heq
        exact ih _ _ _ _ _ (by simp [St.setVar, lookupA_setA_self]) heq
    · rw [if_neg hlen] at heq
      injection heq with h1 h2
      subst h2
      exact hit

/-- Throughout a successful filter loop whose predicate leaves the
current frame's variables unchanged, an absent `item` binding stays
absent (each iteration pops the temporary binding). -/
theorem filterLoop_drops_item (cond : Expr) (r : Nat) (fuel0 : Nat)
    (Hcond : ∀ (g : Nat) (stX : St) (c : Value) (stY : St),
        evalWrap (evalExprCore g stX cond) = (.ok c, stY) →
        stY.rt.cur.vars = stX.rt.cur.vars) :
    ∀ (fuel : Nat) (st : St) (i : Nat) (acc : List Value) (res : Value) (st' : St),
      lookupA st.rt.cur.vars "item" = none →
      evalFilterLoop fuel st r i acc cond = (.ok res, st') →
      lookupA st'.rt.cur.vars "item" = none := by
  intro fuel
  induction fuel with
  | zero => intro st i acc res st' _ heq; exact absurd heq (by simp [evalFilterLoop])
  | succ fuel ih =>
    intro st i acc res st' hit heq
    simp only [evalFilterLoop] at heq
    by_cases hlen : i < (st.heapList r).length
    · rw [if_pos hlen] at heq
      rcases hc : evalWrap (evalExprCore fuel
          (st.setVar "item" ((st.heapList r).getD i VNothing)) cond) with ⟨cr, stB⟩
      rw [hc] at heq
      cases cr with
      | error ex => exact absurd heq (by simp)
      | ok c =>
        dsimp only at heq
        have hold : st.curVarGetD "item" = VNothing := by
          simp [St.curVarGetD, hit]
        rw [hold, if_neg (by simp)] at heq
        refine ih _ _ _ _ _ ?_ heq
        have hB := Hcond fuel _ c stB hc
        show lookupA (popA stB.rt.cur.vars "item") "item" = none
        rw [hB]
        show lookupA (popA (setA st.rt.cur.vars "item"
          ((st.heapList r).getD i VNothing)) "item") "item" = none
        rw [popA_setA_of_none _ _ _ hit]
        exact hit
    · rw [if_neg hlen] at heq
      injection heq with h1 h2
      subst h2
      exact hit

/-- Map-loop analogue of `filterLoop_keeps_item`. -/
theorem mapLoop_keeps_item (tr : Expr) (r : Nat) (v : Value)
    (hv : v ≠ VNothing) :
    ∀ (fuel : Nat) (st : St) (i : Nat) (acc : List Value) (res : Value) (st' : St),
      lookupA st.rt.cur.vars "item" = some v →
      evalMapLoop fuel st r i acc tr = (.ok res, st') →
      lookupA st'.rt.cur.vars "item" = some v := by
  intro fuel
  induction fuel with
  | zero => intro st i acc res st' _ heq; exact absurd heq (by simp [evalMapLoop])
  | succ fuel ih =>
    intro st i acc res st' hit heq
    simp only [evalMapLoop] at heq
    by_cases hlen : i < (st.heapList r).length
    · rw [if_pos hlen] at heq
      rcases hc : evalWrap (evalExprCore fuel
          (st.setVar "item" ((st.heapList r).getD i VNothing)) tr) with ⟨cr, stB⟩
      rw [hc] at heq
      cases cr with
      | error ex => exact absurd heq (by simp)
      | ok c =>
        dsimp only at heq
        have hold : st.curVarGetD "item" = v := by
          simp [St.curVarGetD, hit]
        rw [hold, if_pos hv] at heq
        exact ih _ _ _ _ _ (by simp [St.setVar, lookupA_setA_self]) heq
    · rw [if_neg hlen] at heq
      injection heq with h1 h2
      subst h2
      exact hit

/-- Map-loop analogue of `filterLoop_drops_item`. -/
theorem mapLoop_drops_item (tr : Expr) (r : Nat) (fuel0 : Nat)
    (Hcond : ∀ (g : Nat) (stX : St) (c : Value) (stY : St),
        evalWrap (evalExprCore g stX tr) = (.ok c, stY) →
        stY.rt.cur.vars = stX.rt.cur.vars) :
    ∀ (fuel : Nat) (st : St) (i : Nat) (acc : List Value) (res : Value) (st' : St),
      lookupA st.rt.cur.vars "item" = none →
      evalMapLoop fuel st r i acc tr = (.ok res, st') →
      lookupA st'.rt.cur.vars "item" = none := by
  intro fuel
  induction fuel with
  | zero => intro st i acc res st' _ heq; exact absurd heq (by simp [evalMapLoop])
  | succ fuel ih =>
    intro st i acc res st' hit heq
    simp only [evalMapLoop] at heq
    by_cases hlen : i < (st.heapList r).length
    · rw [if_pos hlen] at heq
      rcases hc : evalWrap (evalExprCore fuel
          (st.setVar "item" ((st.heapList r).getD i VNothing)) tr) with ⟨cr, stB⟩
      rw [hc] at heq
      cases cr with
      | error ex => exact absurd heq (by simp)
      | ok c =>
        dsimp only at heq
        have hold : st.curVarGetD "item" = VNothing := by
          simp [St.curVarGetD, hit]
        rw [hold, if_neg (by simp)] at heq
        refine ih _ _ _ _ _ ?_ heq
        have hB := Hcond fuel _ c stB hc
        show lookupA (popA stB.rt.cur.vars "item") "item" = none
        rw [hB]
        show lookupA (popA (setA st.rt.cur.vars "item"
          ((st.heapList r).getD i VNothing)) "item") "item" = none
        rw [popA_setA_of_none _ _ _ hit]
        exact hit
    · rw [if_neg hlen] at heq
      injection heq with h1 h2
      subst h2
      exact hit

/-- A successful evaluation of `filter L where cond` is a successful run
of the filter loop from index 0 (the swallowed-`RuntimeError` path is
impossible: an escaping `RuntimeError` forces debug on, under which the
outer handler would have propagated it). -/
theorem filterEval_to_loop (fuel : Nat) (st : St) (r : Nat) (cond : Expr)
    (res : Value) (st' : St)
    (hL : st.rt.getVarOpt "L" = some (VList r))
    (hok : evalExpr (fuel + 2) st (.filterExpr (.ident "L") cond) = (.ok res, st')) :
    evalFilterLoop (fuel + 1) st r 0 [] cond = (.ok res, st') := by
  unfold evalExpr at hok
  simp only [evalExprCore, evalWrap, hL] at hok
  rcases hlp : evalFilterLoop (fuel + 1) st r 0 [] cond with ⟨lr, lst⟩
  rw [hlp] at hok
  cases lr with
  | ok c =>
    injection hok with h1 h2
    rw [h1, h2]
  | error ex =>
    cases ex with
    | rte m =>
      have hd := filterLoop_rte_debug cond r m (fuel + 1) st 0 [] lst hlp
      dsimp only at hok
      rw [hd] at hok
      simp at hok
    | nameErr m => exact absurd hok (by simp)
    | typeErr m => exact absurd hok (by simp)
    | brk => exact absurd hok (by simp)
    | cont => exact absurd hok (by simp)
    | stop => exact absurd hok (by simp)
    | ret v => exact absurd hok (by simp)
    | timeout => exact absurd hok (by simp)

/-- Map analogue of `filterEval_to_loop`. -/
theorem mapEval_to_loop (fuel : Nat) (st : St) (r : Nat) (tr : Expr)
    (res : Value) (st' : St)
    (hL : st.rt.getVarOpt "L" = some (VList r))
    (hok : evalExpr (fuel + 2) st (.mapExpr (.ident "L") tr) = (.ok res, st')) :
    evalMapLoop (fuel + 1) st r 0 [] tr = (.ok res, st') := by
  unfold evalExpr at hok
  simp only [evalExprCore, evalWrap, hL] at hok
  rcases hlp : evalMapLoop (fuel + 1) st r 0 [] tr with ⟨lr, lst⟩
  rw [hlp] at hok
  cases lr with
  | ok c =>
    injection hok with h1 h2
    rw [h1, h2]
  | error ex =>
    cases ex with
    | rte m =>
      have hd := mapLoop_rte_debug tr r m (fuel + 1) st 0 [] lst hlp
      dsimp only at hok
      rw [hd] at hok
      simp at hok
    | nameErr m => exact absurd hok (by simp)
    | typeErr m => exact absurd hok (by simp)
    | brk => exact absurd hok (by simp)
    | cont => exact absurd hok (by simp)
    | stop => exact absurd hok (by simp)
    | ret v => exact absurd hok (by simp)
    | timeout => exact absurd hok (by simp)

/-- C8 counterexample: a pre-existing binding `item = Nothing` does NOT
survive `filter L where true` — `evaluate_filter` restores the old value
only when `variables.get('item')` is not `None`, so the binding is popped
and is gone afterwards. -/
theorem C8_counterexample :
    lookupA stItemNothing.rt.cur.vars "item" = some VNothing ∧
    evalExpr 20 stItemNothing c8F = (.ok (VList 1), c8fN) ∧
    lookupA c8fN.rt.cur.vars "item" = none :=
  ⟨rfl, rfl, rfl⟩

/-- C8 amended: across a completed `filter`/`map` over a list bound to
`L`, a pre-existing `item` binding in the current scope whose value is
NOT `Nothing` still exists with the same value afterwards; but a
pre-existing binding whose value IS `Nothing` is removed (for a non-empty
source list and a predicate/transform that leaves the current frame's
variables unchanged, in a well-formed frame): the implicit binding never
leaks out, yet the `Nothing` case loses the binding instead of keeping
it. -/
theorem C8_item_restored_unless_nothing :
    (∀ (fuel : Nat) (cond : Expr) (st : St) (r : Nat) (v res : Value) (st' : St),
        st.rt.getVarOpt "L" = some (VList r) →
        lookupA st.rt.cur.vars "item" = some v → v ≠ VNothing →
        evalExpr (fuel + 2) st (.filterExpr (.ident "L") cond) = (.ok res, st') →
        lookupA st'.rt.cur.vars "item" = some v) ∧
    (∀ (fuel : Nat) (tr : Expr) (st : St) (r : Nat) (v res : Value) (st' : St),
        st.rt.getVarOpt "L" = some (VList r) →
        lookupA st.rt.cur.vars "item" = some v → v ≠ VNothing →
        evalExpr (fuel + 2) st (.mapExpr (.ident "L") tr) = (.ok res, st') →
        lookupA st'.rt.cur.vars "item" = some v) ∧
    (∀ (fuel : Nat) (cond : Expr) (st : St) (r : Nat) (res : Value) (st' : St),
        (∀ (g : Nat) (stX : St) (c : Value) (stY : St),
            evalWrap (evalExprCore g stX cond) = (.ok c, stY) →
            stY.rt.cur.vars = stX.rt.cur.vars) →
        st.rt.getVarOpt "L" = some (VList r) →
        keysNodup st.rt.cur.vars →
        lookupA st.rt.cur.vars "item" = some VNothing →
        st.heapList r ≠ [] →
        evalExpr (fuel + 2) st (.filterExpr (.ident "L") cond) = (.ok res, st') →
        lookupA st'.rt.cur.vars "item" = none) ∧
    (∀ (fuel : Nat) (tr : Expr) (st : St) (r : Nat) (res : Value) (st' : St),
        (∀ (g : Nat) (stX : St) (c : Value) (stY : St),
            evalWrap (evalExprCore g stX tr) = (.ok c, stY) →
            stY.rt.cur.vars = stX.rt.cur.vars) →
        st.rt.getVarOpt "L" = some (VList r) →
        keysNodup st.rt.cur.vars →
        lookupA st.rt.cur.vars "item" = some VNothing →
        st.heapList r ≠ [] →
        evalExpr (fuel + 2) st (.mapExpr (.ident "L") tr) = (.ok res, st') →
        lookupA st'.rt.cur.vars "item" = none) := by
  refine ⟨?_, ?_, ?_, ?_⟩
  · intro fuel cond st r v res st' hL hit hv hok
    exact filterLoop_keeps_item cond r v hv (fuel + 1) st 0 [] res st' hit
      (filterEval_to_loop fuel st r cond res st' hL hok)
  · intro fuel tr st r v res st' hL hit hv hok
    exact mapLoop_keeps_item tr r v hv (fuel + 1) st 0 [] res st' hit
      (mapEval_to_loop fuel st r tr res st' hL hok)
  · intro fuel cond st r res st' Hcond hL hnd hit hne hok
    have hloop := filterEval_to_loop fuel st r cond res st' hL hok
    have hlen0 : 0 < (st.heapList r).length := by
      cases hx : st.heapList r with
      | nil => exact absurd hx hne
      | cons a as => simp [hx]
    simp only [evalFilterLoop] at hloop
    rw [if_pos hlen0] at hloop
    rcases hc : evalWrap (evalExprCore fuel
        (st.setVar "item" ((st.heapList r).getD 0 VNothing)) cond) with ⟨cr, stB⟩
    rw [hc] at hloop
    cases cr with
    | error ex => exact absurd hloop (by simp)
    | ok c =>
      dsimp only at hloop
      have hold : st.curVarGetD "item" = VNothing := by
        simp [St.curVarGetD, hit]
      rw [hold, if_neg (by simp)] at hloop
      refine filterLoop_drops_item cond r 0 Hcond fuel _ 1 _ res st' ?_ hloop
      have hB := Hcond fuel _ c stB hc
      show lookupA (popA stB.rt.cur.vars "item") "item" = none
      rw [hB]
      show lookupA (popA (setA st.rt.cur.vars "item"
        ((st.heapList r).getD 0 VNothing)) "item") "item" = none
      exact lookupA_popA_of_nodup _ _ (keysNodup_setA _ _ _ hnd)
  · intro fuel tr st r res st' Hcond hL hnd hit hne hok
    have hloop := mapEval_to_loop fuel st r tr res st' hL hok
    have hlen0 : 0 < (st.heapList r).length := by
      cases hx : st.heapList r with
      | nil => exact absurd hx hne
      | cons a as => simp [hx]
    simp only [evalMapLoop] at hloop
    rw [if_pos hlen0] at hloop
    rcases hc : evalWrap (evalExprCore fuel
        (st.setVar "item" ((st.heapList r).getD 0 VNothing)) tr) with ⟨cr, stB⟩
    rw [hc] at hloop
    cases cr with
    | error ex => exact absurd hloop (by simp)
    | ok c =>
      dsimp only at hloop
      have hold : st.curVarGetD "item" = VNothing := by
        simp [St.curVarGetD, hit]
      rw [hold, if_neg (by simp)] at hloop
      refine mapLoop_drops_item tr r 0 Hcond fuel _ 1 _ res st' ?_ hloop
      have hB := Hcond fuel _ c stB hc
      show lookupA (popA stB.rt.cur.vars "item") "item" = none
      rw [hB]
      show lookupA (popA (setA st.rt.cur.vars "item"
        ((st.heapList r).getD 0 VNothing)) "item") "item" = none
      exact lookupA_popA_of_nodup _ _ (keysNodup_setA _ _ _ hnd)

/-- Witness for C8: with `item = 5`, `filter L where item` and
`map L using item` both preserve the binding; with `item = Nothing` and a
constant-true predicate over the non-empty list `[1]`, both remove it. -/
theorem C8_item_restored_unless_nothing_witness :
    lookupA c8fP.rt.cur.vars "item" = some (VInt 5) ∧
    lookupA c8mP.rt.cur.vars "item" = some (VInt 5) ∧
    lookupA c8fN.rt.cur.vars "item" = none ∧
    lookupA c8mN.rt.cur.vars "item" = none := by
  have hbool : ∀ (g : Nat) (stX : St) (c : Value) (stY : St),
      evalWrap (evalExprCore g stX (Expr.boolLit true)) = (.ok c, stY) →
      stY.rt.cur.vars = stX.rt.cur.vars := by
    intro g stX c stY h
    cases g with
    | zero => simp [evalExprCore, evalWrap] at h
    | succ g =>
      simp only [evalExprCore, evalWrap] at h
      injection h with h1 h2
      rw [← h2]
  refine ⟨?_, ?_, ?_, ?_⟩
  · exact C8_item_restored_unless_nothing.1 18 (.ident "item") stItemFive 0
      (VInt 5) (VList 1) c8fP rfl rfl (by decide) rfl
  · exact C8_item_restored_unless_nothing.2.1 18 (.ident "item") stItemFive 0
      (VInt 5) (VList 1) c8mP rfl rfl (by decide) rfl
  · exact C8_item_restored_unless_nothing.2.2.1 18 (.boolLit true)
      stItemNothing 0 (VList 1) c8fN hbool rfl (by unfold keysNodup; decide) rfl
      (by decide) rfl
  · exact C8_item_restored_unless_nothing.2.2.2 18 (.boolLit true)
      stItemNothing 0 (VList 1) c8mN hbool rfl (by unfold keysNodup; decide) rfl
      (by decide) rfl

/-- C1 counterexample: after `x is 1`, `define f … return x end`,
`x is 2`, the call `f` yields `2` — the body resolved `x` in the CALLER's
scope at the call site, although the captured environment recorded
`x = 1`; running the body in a child of the captured environment (as the
claim states) would yield `1`. -/
theorem C1_counterexample :
    (execBody 30 emptySt c1prog).2.rt.getVarOpt "r" = some (VInt 2) ∧
    c1f.closureEnv = [("x", VInt 1)] ∧
    (specCallCaptured 20 c1st3 c1f []).1 = .ok (VInt 1) ∧
    (VInt 2 : Value) ≠ VInt 1 :=
  ⟨rfl, rfl, rfl, by decide⟩

/-- C1 amended: for a call to a user-defined function (its name not
shadowed by a builtin), the evaluator resolves the function along the
scope chain, evaluates the arguments, and executes the body in a fresh
child scope whose PARENT is the CALLER's scope at the call site (with the
current frame's functions deep-copied); the captured environment is
stored but unused.  A `Return` raised in the body is caught and its value
is the call's result, falling off the end yields `Nothing`, the caller's
runtime is restored in every case, and a `NameError` anywhere in the call
surfaces as `RuntimeError("Function … not defined")`. -/
theorem C1_call_runs_body_in_child_of_caller (fuel : Nat) (st st1 : St)
    (name : String) (argEs : List Expr) (f : FuncV) (args : List Value)
    (hB : BUILTINS_names.contains name = false)
    (hf : st.rt.getFuncOpt name = some f)
    (hargs : evalExprList fuel st argEs = (.ok args, st1)) :
    callFunction (fuel + 1) st name argEs =
      (let dc := deepCopyFuncs fuel st1.heap st1.rt.cur.funcs
       let st2 := St.pushFrame { st1 with heap := dc.2 } ⟨[], dc.1⟩
       let st3 := bindParams st2 f.params args
       match execBody fuel st3 f.body with
       | (.ok _, st4) => (.ok VNothing, st4.popFrame)
       | (.error (.ret v), st4) => (.ok v, st4.popFrame)
       | (.error (.nameErr m), st4) =>
           (.error (.rte (undefinedFuncMsg name)), st4.popFrame)
       | (.error e, st4) => (.error e, st4.popFrame)) := by
  simp only [callFunction, hB, Bool.false_eq_true, if_false, hf, hargs]
  rcases hb : execBody fuel
      (bindParams
        (St.pushFrame
          { st1 with heap := (deepCopyFuncs fuel st1.heap st1.rt.cur.funcs).2 }
          ⟨[], (deepCopyFuncs fuel st1.heap st1.rt.cur.funcs).1⟩)
        f.params args) f.body with ⟨br, st4⟩
  cases br with
  | ok u => rfl
  | error ex => cases ex <;> rfl

/-- Witness for C1: calling `f` from `c1st3` (where the caller's `x` is
`2` and the captured environment's `x` is `1`) returns `2` and restores
the state. -/
theorem C1_call_runs_body_in_child_of_caller_witness :
    BUILTINS_names.contains "f" = false ∧
    callFunction (29 + 1) c1st3 "f" [] = (.ok (VInt 2), c1st3) := by
  constructor
  · decide
  · rw [C1_call_runs_body_in_child_of_caller 29 c1st3 c1st3 "f" [] c1f []
        (by decide) rfl rfl]
    rfl

end Gopa
